import Mathlib

/-!
Verification development for a decentralized polling/voting ledger
(single Rust source: src/lib.rs). The Rust data structures and the
instruction handlers are embedded shallowly:

* machine integers (u64, u8) become `Nat` with explicit wrapping
  (`wrapAdd64`) and saturating (`satAdd64`, `satSub64`) arithmetic;
* Rust strings and byte vectors become `List Nat` (byte lists), so
  `String::len` (a byte count) is `List.length`;
* account buffers become typed `Account` records holding an `AData`
  payload; Borsh `try_from_slice` becomes a `decode_*` projection that
  fails (returns `none`) when the buffer holds something else;
* every handler takes the account list and the current block height and
  returns the outcome together with the post-state account list, so that
  buffer writes performed before a failure remain visible, exactly as the
  eager `copy_from_slice` writes of the source do;
* the IEEE-754 double arithmetic used by the early-voter bonus is
  modelled exactly: a float is a dyadic value `m * 2^e`, and every
  operation rounds its exact rational result to 53 significant bits with
  round-to-nearest, ties-to-even (the values reached by the program are
  far from overflow and subnormal range, so unbounded exponents are
  faithful).
-/

/-! ### Machine-integer helpers (u64 semantics) -/

def U64MOD : ℕ := 2 ^ 64

def U64MAX : ℕ := 2 ^ 64 - 1

/-- u64 `wrapping_add`. -/
def wrapAdd64 (a b : ℕ) : ℕ := (a + b) % U64MOD

/-- u64 `saturating_add`. -/
def satAdd64 (a b : ℕ) : ℕ := min (a + b) U64MAX

/-- u64 `saturating_sub` (on `Nat`, truncated subtraction is exactly saturation at 0). -/
def satSub64 (a b : ℕ) : ℕ := a - b

/-! ### Exact model of IEEE-754 binary64 (double) arithmetic

A float value is represented by a significand-exponent pair `⟨m, e⟩`
denoting the exact rational `m * 2^e`.  `roundPQ p q` returns the
binary64 rounding (53-bit significand, round-to-nearest ties-to-even) of
the positive rational `p / q`; all computations are on `Nat`/`Int` so
that the kernel can evaluate them on concrete inputs. -/

/-- Fuel-driven binary length: `nbitsA fuel n` is the number of binary
digits of `n` provided `n < 2 ^ fuel`. -/
def nbitsA : ℕ → ℕ → ℕ
  | 0, _ => 0
  | fuel + 1, n => if n = 0 then 0 else nbitsA fuel (n / 2) + 1

/-- Number of binary digits of `n` (0 for 0); `n` itself is always
sufficient fuel since `n < 2 ^ n`. -/
def nbits (n : ℕ) : ℕ := nbitsA n n

/-- Round-to-nearest integer of `A / B`, ties to even (`B > 0`). -/
def rne (A B : ℕ) : ℕ :=
  let f := A / B
  let r2 := 2 * (A % B)
  if r2 < B then f
  else if B < r2 then f + 1
  else if f % 2 = 0 then f else f + 1

/-- Decides `2 ^ e ≤ p / q` using only integer arithmetic. -/
def pow2LE (e : ℤ) (p q : ℕ) : Prop :=
  if 0 ≤ e then q * 2 ^ e.toNat ≤ p else q ≤ p * 2 ^ (-e).toNat

instance (e : ℤ) (p q : ℕ) : Decidable (pow2LE e p q) := by
  unfold pow2LE; split <;> infer_instance

/-- The binade exponent of `p / q` for `p, q ≥ 1`: the unique `e` with
`2 ^ e ≤ p / q < 2 ^ (e + 1)`. -/
def qexpPQ (p q : ℕ) : ℤ :=
  let e0 : ℤ := (nbits p : ℤ) - (nbits q : ℤ)
  if pow2LE e0 p q then e0 else e0 - 1

/-- A binary64 value as exact dyadic rational `m * 2^e`. -/
structure F64 where
  m : ℤ
  e : ℤ
deriving DecidableEq

/-- The exact rational value of a modelled double. -/
def F64.val (x : F64) : ℚ := (x.m : ℚ) * 2 ^ x.e

/-- Binary64 rounding of the positive rational `p / q`: the significand
is `rne` of `(p / q) * 2 ^ (52 - e)`, which lies in `[2^52, 2^53]`. -/
def roundPQ (p q : ℕ) : F64 :=
  let e := qexpPQ p q
  let A := if 0 ≤ 52 - e then p * 2 ^ (52 - e).toNat else p
  let B := if 0 ≤ 52 - e then q else q * 2 ^ (e - 52).toNat
  ⟨(rne A B : ℤ), e - 52⟩

/-- Binary64 rounding of `n / d` for an integer numerator (sign-symmetric,
as IEEE rounding is). A zero numerator or denominator yields zero. -/
def roundND (n : ℤ) (d : ℕ) : F64 :=
  if d = 0 then ⟨0, 0⟩
  else if n = 0 then ⟨0, 0⟩
  else if 0 < n then roundPQ n.toNat d
  else
    let r := roundPQ (-n).toNat d
    ⟨-r.m, r.e⟩

/-- Binary64 rounding of `(n / d) * 2 ^ k` (scaling by a power of two is
exact, so it commutes with rounding). -/
def roundSc (n : ℤ) (d : ℕ) (k : ℤ) : F64 :=
  let r := roundND n d
  ⟨r.m, r.e + k⟩

/-- IEEE double addition: round the exact sum. -/
def F64.add (x y : F64) : F64 :=
  let e := min x.e y.e
  roundSc (x.m * 2 ^ (x.e - e).toNat + y.m * 2 ^ (y.e - e).toNat) 1 e

/-- IEEE double subtraction: round the exact difference. -/
def F64.sub (x y : F64) : F64 := F64.add x ⟨-y.m, y.e⟩

/-- IEEE double multiplication: round the exact product. -/
def F64.mul (x y : F64) : F64 := roundSc (x.m * y.m) 1 (x.e + y.e)

/-- IEEE double division: round the exact quotient (division by zero is
unreachable in the embedded code paths; it is mapped to zero). -/
def F64.div (x y : F64) : F64 :=
  if y.m = 0 then ⟨0, 0⟩
  else if 0 < y.m then roundSc x.m y.m.toNat (x.e - y.e)
  else roundSc (-x.m) (-y.m).toNat (x.e - y.e)

/-- Rust `f64::ceil` — exact on binary64 (the result is always
representable), so no rounding step is involved. -/
def F64.ceil (x : F64) : F64 :=
  if 0 ≤ x.e then x
  else if 0 ≤ x.m then ⟨((x.m.toNat + 2 ^ (-x.e).toNat - 1) / 2 ^ (-x.e).toNat : ℕ), 0⟩
  else ⟨-(((-x.m).toNat / 2 ^ (-x.e).toNat : ℕ) : ℤ), 0⟩

/-- Rust `u64` cast of a double (`as u64`): truncate toward zero,
saturating at the type bounds, negative values to 0. -/
def F64.toU64 (x : F64) : ℕ :=
  if x.m ≤ 0 then 0
  else if 0 ≤ x.e then min (x.m.toNat * 2 ^ x.e.toNat) U64MAX
  else min (x.m.toNat / 2 ^ (-x.e).toNat) U64MAX

/-- Rust `u64 as f64` / `u8 as f64` cast: round-to-nearest-even. -/
def toF64 (n : ℕ) : F64 := roundND (n : ℤ) 1

/-! ### Data model (structures of src/lib.rs) -/

/-- Public keys are 32-byte values; modelled as their byte list. -/
abbrev Pubkey := List ℕ

structure Poll where
  id : ℕ
  creator : Pubkey
  title : List ℕ
  description : List ℕ
  options : List (List ℕ)
  start_time : ℕ
  end_time : ℕ
  is_private : Bool
  allow_revote : Bool
  is_active : Bool
  is_weighted : Bool
  allow_delegation : Bool
  is_encrypted : Bool
  decryption_key : Option (List ℕ)
  weight_token : Option Pubkey
  early_voter_bonus : ℕ
deriving DecidableEq

structure Vote where
  poll_id : ℕ
  voter : Pubkey
  option_index : ℕ
  timestamp : ℕ
  weight : ℕ
  delegated_to : Option Pubkey
  encrypted_data : Option (List ℕ)
  zk_proof : Option (List ℕ)
  nonce : Option (List ℕ)
deriving DecidableEq

structure VoteCount where
  poll_id : ℕ
  counts : List ℕ
  total_voters : ℕ
  last_updated : ℕ
  is_finalized : Bool
deriving DecidableEq

structure VoterRegistry where
  poll_id : ℕ
  voter_bitmap : List ℕ
  voters : List Pubkey
deriving DecidableEq

structure Delegation where
  id : ℕ
  delegator : Pubkey
  delegate : Pubkey
  poll_id : Option ℕ
  expiration : Option ℕ
  is_active : Bool
deriving DecidableEq

structure TokenBalance where
  owner : Pubkey
  token : Pubkey
  amount : ℕ
  last_updated : ℕ
deriving DecidableEq

/-- Error outcomes: the `VotingError` variants of the source plus the
`ProgramError` shape errors the handlers raise directly. -/
inductive PErr where
  | invalidPollParameters
  | pollAlreadyExists
  | pollDoesNotExist
  | pollNotActive
  | pollNotStarted
  | pollEnded
  | notPollCreator
  | alreadyVoted
  | revotingNotAllowed
  | invalidOptionIndex
  | invalidVoteWeight
  | invalidDelegation
  | delegationExpired
  | invalidZkProof
  | invalidEncryption
  | insufficientFees
  | invalidFeeTransaction
  | pollAlreadyStarted
  | pollNotEncrypted
  | resultsAlreadyFinalized
  | invalidDecryptionKey
  | pollStillActive
  | delegationNotFound
  | notDelegator
  | tokenBalanceNotFound
  | invalidToken
  | missingNonce
  | notEnoughAccountKeys
  | missingRequiredSignature
  | invalidAccountData
deriving DecidableEq

instance {ε α : Type} [DecidableEq ε] [DecidableEq α] : DecidableEq (Except ε α)
  | .ok a, .ok b =>
      if h : a = b then isTrue (congrArg Except.ok h)
      else isFalse (fun hh => h (by cases hh; rfl))
  | .error x, .error y =>
      if h : x = y then isTrue (congrArg Except.error h)
      else isFalse (fun hh => h (by cases hh; rfl))
  | .ok _, .error _ => isFalse (fun hh => Except.noConfusion hh)
  | .error _, .ok _ => isFalse (fun hh => Except.noConfusion hh)

/-- Typed contents of an account buffer; `rawD` stands for bytes that do
not deserialize as any of the entity types. -/
inductive AData where
  | pollD (p : Poll)
  | voteD (v : Vote)
  | vcD (c : VoteCount)
  | regD (r : VoterRegistry)
  | delegD (d : Delegation)
  | tokD (t : TokenBalance)
  | rawD
deriving DecidableEq

structure Account where
  key : Pubkey
  is_signer : Bool
  is_writable : Bool
  data : AData
deriving DecidableEq

def dummyAccount : Account := ⟨[], false, false, .rawD⟩

def decode_poll : AData → Option Poll
  | .pollD p => some p
  | _ => none

def decode_vote : AData → Option Vote
  | .voteD v => some v
  | _ => none

def decode_vote_count : AData → Option VoteCount
  | .vcD c => some c
  | _ => none

def decode_voter_registry : AData → Option VoterRegistry
  | .regD r => some r
  | _ => none

def decode_delegation : AData → Option Delegation
  | .delegD d => some d
  | _ => none

def decode_token_balance : AData → Option TokenBalance
  | .tokD t => some t
  | _ => none

/-- Caller-supplied fee transaction (`tx_hex`). Bitcoin consensus
deserialization is an external library call; it is modelled by its
outcome: `malformed` when deserialization fails, `decoded n` for a
transaction with `n` inputs. -/
inductive FeeTx where
  | malformed
  | decoded (inputs : ℕ)
deriving DecidableEq

/-! ### Helper functions (src/lib.rs lines 1529-1712) -/

/-- Models `process_fee_transaction` (lines 1529-1568): deserialization
failure yields `InvalidFeeTransaction`; a transaction without inputs
yields `InsufficientFees`; building the state-transition transaction and
`set_transaction_to_sign` are substrate effects that do not modify
account data, so success returns unit. -/
def process_fee_transaction (accounts : List Account) (fee : FeeTx) : Except PErr Unit :=
  match accounts, fee with
  | _, .malformed => .error .invalidFeeTransaction
  | _, .decoded 0 => .error .insufficientFees
  | _, .decoded (_ + 1) => .ok ()

/-- Models `hash_pubkey` (lines 1613-1624): u64 wrapping sum of the first
eight key bytes, each shifted left by `8 * i` bits. -/
def hash_pubkey (pubkey : Pubkey) : ℕ :=
  (List.range 8).foldl (fun h i => (h + pubkey.getD i 0 * 2 ^ (i * 8) % U64MOD) % U64MOD) 0

/-- Models `find_voter_index` (lines 1570-1589): a clear bitmap bit (or an
out-of-range byte index) answers absence immediately; a set bit falls
back to a linear scan of the voters list. -/
def find_voter_index (registry : VoterRegistry) (voter : Pubkey) : Option ℕ :=
  let voter_hash := hash_pubkey voter
  let byte_index := voter_hash % 8192 / 8
  let bit_index := voter_hash % 8192 % 8
  if byte_index < registry.voter_bitmap.length then
    if (registry.voter_bitmap.getD byte_index 0).testBit bit_index then
      registry.voters.findIdx? (· = voter)
    else none
  else none

/-- Models `add_voter_to_registry` (lines 1591-1611): set the hash bit
(growing the bitmap with zero bytes when the byte index is past the end)
and append the voter to the list. -/
def add_voter_to_registry (registry : VoterRegistry) (voter : Pubkey) : VoterRegistry :=
  let voter_hash := hash_pubkey voter
  let byte_index := voter_hash % 8192 / 8
  let bit_index := voter_hash % 8192 % 8
  let bm0 := registry.voter_bitmap
  let bm1 := if byte_index < bm0.length then bm0
             else bm0 ++ List.replicate (byte_index + 1 - bm0.length) 0
  let bm2 := bm1.set byte_index (bm1.getD byte_index 0 ||| 2 ^ bit_index)
  { registry with voter_bitmap := bm2, voters := registry.voters ++ [voter] }

/-- Models `get_previous_vote` (lines 1695-1712): decode the vote account
and return its option index when it belongs to this voter and poll. -/
def get_previous_vote (vote_account : Account) (poll_id : ℕ) (voter : Pubkey) : Option ℕ :=
  match decode_vote vote_account.data with
  | some vote => if vote.voter = voter ∧ vote.poll_id = poll_id then some vote.option_index else none
  | none => none

/-- Models `update_vote_count` (lines 1626-1663): on a revote, decrement
the previous option (saturating, skipped when out of range); otherwise
increment `total_voters` (saturating); then increment the new option
(saturating, skipped when out of range) and stamp `last_updated`. -/
def update_vote_count (vote_count_account : Account) (option_index weight : ℕ)
    (is_revote : Bool) (previous_option : Option ℕ) (now : ℕ) : Except PErr Account :=
  match decode_vote_count vote_count_account.data with
  | none => .error .invalidAccountData
  | some vc0 =>
    let vc1 :=
      if is_revote then
        match previous_option with
        | some prev =>
          if prev < vc0.counts.length then
            { vc0 with counts := vc0.counts.set prev (satSub64 (vc0.counts.getD prev 0) weight) }
          else vc0
        | none => vc0
      else { vc0 with total_voters := satAdd64 vc0.total_voters 1 }
    let vc2 :=
      if option_index < vc1.counts.length then
        { vc1 with counts := vc1.counts.set option_index (satAdd64 (vc1.counts.getD option_index 0) weight) }
      else vc1
    .ok { vote_count_account with data := .vcD { vc2 with last_updated := now } }

/-- Models `update_vote_count_change` (lines 1665-1693): decrement the old
option and increment the new one (both saturating, skipped when out of
range) and stamp `last_updated`. -/
def update_vote_count_change (vote_count_account : Account) (old_option_index new_option_index weight : ℕ)
    (now : ℕ) : Except PErr Account :=
  match decode_vote_count vote_count_account.data with
  | none => .error .invalidAccountData
  | some vc0 =>
    let vc1 :=
      if old_option_index < vc0.counts.length then
        { vc0 with counts := vc0.counts.set old_option_index (satSub64 (vc0.counts.getD old_option_index 0) weight) }
      else vc0
    let vc2 :=
      if new_option_index < vc1.counts.length then
        { vc1 with counts := vc1.counts.set new_option_index (satAdd64 (vc1.counts.getD new_option_index 0) weight) }
      else vc1
    .ok { vote_count_account with data := .vcD { vc2 with last_updated := now } }

/-! ### Vote weight resolution (src/lib.rs lines 872-911) -/

/-- The early-voter bonus computation of `process_cast_vote` (lines
894-900), in exact IEEE binary64 arithmetic:
`progress = elapsed / duration`,
`bonus_multiplier = 1.0 + (bonus / 100.0) * (1.0 - progress)`,
`ceil(amount * bonus_multiplier) as u64`. -/
def early_bonus_weight (amount bonus elapsed duration : ℕ) : ℕ :=
  let progress := F64.div (toF64 elapsed) (toF64 duration)
  let bonus_multiplier :=
    F64.add (toF64 1) (F64.mul (F64.div (toF64 bonus) (toF64 100)) (F64.sub (toF64 1) progress))
  F64.toU64 (F64.ceil (F64.mul (toF64 amount) bonus_multiplier))

/-- Models lines 890-903: saturating elapsed/duration; the bonus path is
taken only when both the bonus and the duration are positive. -/
def weighted_amount (poll : Poll) (amount : ℕ) (now : ℕ) : ℕ :=
  let time_elapsed := satSub64 now poll.start_time
  let poll_duration := satSub64 poll.end_time poll.start_time
  if 0 < poll.early_voter_bonus ∧ 0 < poll_duration then
    early_bonus_weight amount poll.early_voter_bonus time_elapsed poll_duration
  else amount

/-- Models the weight determination of `process_cast_vote` (lines
872-911): weighted polls with a supplied token-balance record check
ownership and token identity and apply the bonus formula; weighted polls
without one fall back to the caller-supplied weight or 1; non-weighted
polls always weigh 1. -/
def resolve_vote_weight (poll : Poll) (token_balance_account : Option Account)
    (voter_key : Pubkey) (weight : Option ℕ) (now : ℕ) : Except PErr ℕ :=
  if poll.is_weighted then
    match token_balance_account with
    | some tba =>
      match decode_token_balance tba.data with
      | none => .error .tokenBalanceNotFound
      | some tb =>
        if tb.owner ≠ voter_key then .error .invalidAccountData
        else if (match poll.weight_token with | some wt => decide (tb.token ≠ wt) | none => false) then
          .error .invalidToken
        else .ok (weighted_amount poll tb.amount now)
    | none => .ok (weight.getD 1)
  else .ok 1

/-- Models the delegation handling of `process_cast_vote` (lines 811-846):
with a delegation account supplied, the poll must allow delegation and
the delegation must name the caller as delegator, be active, be scoped to
this poll (or unscoped) and not be expired; the effective voter is then
the delegate. Without a delegation account the caller votes directly. -/
def resolve_delegation (poll : Poll) (delegation_account : Option Account)
    (voter_key : Pubkey) (poll_id now : ℕ) : Except PErr Pubkey :=
  match delegation_account with
  | some dacc =>
    if ¬poll.allow_delegation then .error .invalidDelegation
    else
      match decode_delegation dacc.data with
      | none => .error .invalidAccountData
      | some d =>
        if d.delegator ≠ voter_key then .error .invalidDelegation
        else if ¬d.is_active then .error .invalidDelegation
        else if (match d.poll_id with | some pid => decide (pid ≠ poll_id) | none => false) then
          .error .invalidDelegation
        else if (match d.expiration with | some exp => decide (now > exp) | none => false) then
          .error .delegationExpired
        else .ok d.delegate
  | none => .ok voter_key
/-! ### Instruction handlers

Each handler mirrors its `process_*` function in src/lib.rs.  The source
runs `process_fee_transaction` as its very last step, after all account
writes.  Each handler is therefore embedded as:

* a `*_checks` stage covering the validation prefix of the source (its
  sequence of early `return Err(..)` guards, written as an `Except`
  pipeline of `ensureE`/`okOr` steps in source order), which computes the
  records to be written;
* a `*_core` function running the checks and then performing the account
  writes in source order (returning, on failure, the error together with
  the account state at that point — writes already performed remain
  visible);
* a `process_*` wrapper that runs the fee step on the final state via
  `wrapFee`/`finish_with_fee`.
-/

/-- An early-return guard of the source: `ok` when the condition holds,
the given error otherwise. -/
def ensureE (c : Prop) [Decidable c] (e : PErr) : Except PErr Unit :=
  if c then .ok () else .error e

/-- A `try_from_slice(..).map_err(..)?` of the source: unwrap an optional
decode result or fail with the given error. -/
def okOr (o : Option α) (e : PErr) : Except PErr α :=
  match o with
  | some a => .ok a
  | none => .error e

/-- The common tail of every handler: run the fee transaction on the
already-written state; the fee step itself writes nothing. -/
def finish_with_fee (st : List Account) (fee : FeeTx) : Except PErr Unit × List Account :=
  match process_fee_transaction st fee with
  | .error e => (.error e, st)
  | .ok _ => (.ok (), st)

/-- Glue shared by the nine `process_*` wrappers: propagate a core
failure (with the state at the failure point) or run the fee step on the
core's final state. -/
def wrapFee (r : Except (PErr × List Account) (List Account)) (fee : FeeTx) :
    Except PErr Unit × List Account :=
  match r with
  | .error es => (.error es.1, es.2)
  | .ok st => finish_with_fee st fee

/-! #### CreatePoll -/

/-- The records `process_create_poll` writes on success. -/
structure CreatePlan where
  poll : Poll
  vote_count : VoteCount
  voter_registry : VoterRegistry

/-- The validation prefix of `process_create_poll` (lines 502-608), in
source order. -/
def create_poll_checks (title description : List ℕ) (options : List (List ℕ))
    (start_time end_time : ℕ)
    (is_private allow_revote is_weighted allow_delegation is_encrypted : Bool)
    (weight_token : Option Pubkey) (early_voter_bonus : ℕ)
    (accounts : List Account) (now : ℕ) : Except PErr CreatePlan := do
  let min_accounts := if is_weighted ∧ weight_token.isSome then 5 else 4
  ensureE (¬accounts.length < min_accounts) .notEnoughAccountKeys
  let creator_account := accounts.getD 0 dummyAccount
  ensureE (creator_account.is_signer = true) .missingRequiredSignature
  ensureE ((accounts.getD 1 dummyAccount).is_writable = true ∧
    (accounts.getD 2 dummyAccount).is_writable = true ∧
    (accounts.getD 3 dummyAccount).is_writable = true) .invalidAccountData
  ensureE (¬(title.length = 0 ∨ 100 < title.length)) .invalidPollParameters
  ensureE (¬1000 < description.length) .invalidPollParameters
  ensureE (¬(options.length = 0 ∨ 20 < options.length)) .invalidPollParameters
  ensureE (¬options.any (fun o => o.length = 0 || 100 < o.length)) .invalidPollParameters
  ensureE (¬end_time ≤ start_time) .invalidPollParameters
  ensureE (¬end_time ≤ now) .invalidPollParameters
  ensureE (¬(is_weighted ∧ weight_token = none)) .invalidPollParameters
  ensureE (¬100 < early_voter_bonus) .invalidPollParameters
  let poll_id := wrapAdd64 now (creator_account.key.getD 0 0)
  let poll : Poll :=
    { id := poll_id, creator := creator_account.key, title := title,
      description := description, options := options, start_time := start_time,
      end_time := end_time, is_private := is_private, allow_revote := allow_revote,
      is_active := true, is_weighted := is_weighted, allow_delegation := allow_delegation,
      is_encrypted := is_encrypted, decryption_key := none, weight_token := weight_token,
      early_voter_bonus := early_voter_bonus }
  let vote_count : VoteCount :=
    { poll_id := poll_id, counts := List.replicate options.length 0, total_voters := 0,
      last_updated := now, is_finalized := false }
  let voter_registry : VoterRegistry :=
    { poll_id := poll_id, voter_bitmap := List.replicate 1024 0, voters := [] }
  return { poll := poll, vote_count := vote_count, voter_registry := voter_registry }

/-- Models `process_create_poll` (lines 485-650) up to the fee step:
validate, then write poll, vote count and voter registry. -/
def create_poll_core (title description : List ℕ) (options : List (List ℕ))
    (start_time end_time : ℕ)
    (is_private allow_revote is_weighted allow_delegation is_encrypted : Bool)
    (weight_token : Option Pubkey) (early_voter_bonus : ℕ)
    (accounts : List Account) (now : ℕ) : Except (PErr × List Account) (List Account) :=
  match create_poll_checks title description options start_time end_time is_private
      allow_revote is_weighted allow_delegation is_encrypted weight_token
      early_voter_bonus accounts now with
  | .error e => .error (e, accounts)
  | .ok plan =>
    let a1 := accounts.set 1 { accounts.getD 1 dummyAccount with data := .pollD plan.poll }
    let a2 := a1.set 2 { accounts.getD 2 dummyAccount with data := .vcD plan.vote_count }
    .ok (a2.set 3 { accounts.getD 3 dummyAccount with data := .regD plan.voter_registry })

/-- Models `process_create_poll` (lines 485-650). -/
def process_create_poll (title description : List ℕ) (options : List (List ℕ))
    (start_time end_time : ℕ)
    (is_private allow_revote is_weighted allow_delegation is_encrypted : Bool)
    (weight_token : Option Pubkey) (early_voter_bonus : ℕ) (fee : FeeTx)
    (accounts : List Account) (now : ℕ) : Except PErr Unit × List Account :=
  wrapFee (create_poll_core title description options start_time end_time is_private
      allow_revote is_weighted allow_delegation is_encrypted weight_token
      early_voter_bonus accounts now) fee

/-! #### CancelPoll -/

/-- Models `process_cancel_poll` (lines 652-711) up to the fee step. -/
def cancel_poll_core (poll_id : ℕ)
    (accounts : List Account) (now : ℕ) : Except (PErr × List Account) (List Account) :=
  if accounts.length < 2 then .error (.notEnoughAccountKeys, accounts) else
  let creator_account := accounts.getD 0 dummyAccount
  let poll_account := accounts.getD 1 dummyAccount
  if ¬creator_account.is_signer then .error (.missingRequiredSignature, accounts) else
  if ¬poll_account.is_writable then .error (.invalidAccountData, accounts) else
  match decode_poll poll_account.data with
  | none => .error (.invalidAccountData, accounts)
  | some poll =>
    if poll.id ≠ poll_id then .error (.pollDoesNotExist, accounts) else
    if poll.creator ≠ creator_account.key then .error (.notPollCreator, accounts) else
    if poll.start_time ≤ now then .error (.pollAlreadyStarted, accounts) else
    .ok (accounts.set 1 { poll_account with data := .pollD { poll with is_active := false } })

/-- Models `process_cancel_poll` (lines 652-711). -/
def process_cancel_poll (poll_id : ℕ) (fee : FeeTx)
    (accounts : List Account) (now : ℕ) : Except PErr Unit × List Account :=
  wrapFee (cancel_poll_core poll_id accounts now) fee

/-! #### CastVote -/

/-- What `process_cast_vote` is about to persist: the (possibly grown)
voter registry, the registry-membership result for the caller, and the
new vote record. -/
structure CastPlan where
  poll : Poll
  voter_index : Option ℕ
  voter_registry : VoterRegistry
  vote : Vote

/-- The validation prefix of `process_cast_vote` (lines 724-924), in
source order: shape checks, poll checks, timing, option index, registry
lookup (with the revote rule), delegation resolution, zero-knowledge and
encryption presence checks, and weight resolution. -/
def cast_vote_checks (poll_id option_index : ℕ) (weight : Option ℕ)
    (encrypted_data zk_proof nonce : Option (List ℕ))
    (accounts : List Account) (now : ℕ) : Except PErr CastPlan := do
  ensureE (¬accounts.length < 5) .notEnoughAccountKeys
  let voter_account := accounts.getD 0 dummyAccount
  let delegation_account := if 5 < accounts.length then some (accounts.getD 5 dummyAccount) else none
  let token_balance_account := if 6 < accounts.length then some (accounts.getD 6 dummyAccount) else none
  ensureE (voter_account.is_signer = true) .missingRequiredSignature
  ensureE ((accounts.getD 1 dummyAccount).is_writable = true ∧
    (accounts.getD 2 dummyAccount).is_writable = true ∧
    (accounts.getD 3 dummyAccount).is_writable = true ∧
    (accounts.getD 4 dummyAccount).is_writable = true) .invalidAccountData
  let poll ← okOr (decode_poll (accounts.getD 2 dummyAccount).data) .invalidAccountData
  ensureE (poll.id = poll_id) .pollDoesNotExist
  ensureE (poll.is_active = true) .pollNotActive
  ensureE (¬now < poll.start_time) .pollNotStarted
  ensureE (¬poll.end_time < now) .pollEnded
  ensureE (¬poll.options.length ≤ option_index) .invalidOptionIndex
  let voter_registry0 ← okOr (decode_voter_registry (accounts.getD 4 dummyAccount).data)
    .invalidAccountData
  let voter_key := voter_account.key
  let voter_index := find_voter_index voter_registry0 voter_key
  ensureE (¬(voter_index.isSome ∧ poll.allow_revote = false)) .alreadyVoted
  let voter_registry :=
    if voter_index.isSome then voter_registry0
    else add_voter_to_registry voter_registry0 voter_key
  let effective_voter ← resolve_delegation poll delegation_account voter_key poll_id now
  ensureE (¬(poll.is_private = true ∧ (match zk_proof with
    | some proof => decide (proof.length = 0)
    | none => true) = true)) .invalidZkProof
  ensureE (¬(poll.is_encrypted = true ∧ encrypted_data = none)) .invalidEncryption
  ensureE (¬(poll.is_encrypted = true ∧ nonce = none)) .missingNonce
  let vote_weight ← resolve_vote_weight poll token_balance_account voter_key weight now
  let vote : Vote :=
    { poll_id := poll_id, voter := voter_key, option_index := option_index,
      timestamp := now, weight := vote_weight,
      delegated_to := if delegation_account.isSome then some effective_voter else none,
      encrypted_data := encrypted_data, zk_proof := zk_proof, nonce := nonce }
  return { poll := poll, voter_index := voter_index, voter_registry := voter_registry, vote := vote }

/-- Models `process_cast_vote` (lines 713-957) up to the fee step,
including the source order of the final writes: the new vote is
persisted first, then `update_vote_count` is called with a previous
option read back (by `get_previous_vote`) from that same, already
overwritten, vote account, then the registry is persisted. -/
def cast_vote_core (poll_id option_index : ℕ) (weight : Option ℕ)
    (encrypted_data zk_proof nonce : Option (List ℕ))
    (accounts : List Account) (now : ℕ) : Except (PErr × List Account) (List Account) :=
  match cast_vote_checks poll_id option_index weight encrypted_data zk_proof nonce
      accounts now with
  | .error e => .error (e, accounts)
  | .ok plan =>
    let a1 := accounts.set 1 { accounts.getD 1 dummyAccount with data := .voteD plan.vote }
    let previous_option :=
      plan.voter_index.map (fun _ =>
        (get_previous_vote (a1.getD 1 dummyAccount) poll_id (accounts.getD 0 dummyAccount).key).getD 0)
    match update_vote_count (a1.getD 3 dummyAccount) option_index plan.vote.weight
        plan.voter_index.isSome previous_option now with
    | .error e => .error (e, a1)
    | .ok vca =>
      .ok ((a1.set 3 vca).set 4
        { accounts.getD 4 dummyAccount with data := .regD plan.voter_registry })

/-- Models `process_cast_vote` (lines 713-957). -/
def process_cast_vote (poll_id option_index : ℕ) (weight : Option ℕ)
    (encrypted_data zk_proof nonce : Option (List ℕ)) (fee : FeeTx)
    (accounts : List Account) (now : ℕ) : Except PErr Unit × List Account :=
  wrapFee (cast_vote_core poll_id option_index weight encrypted_data zk_proof nonce
    accounts now) fee

/-! #### ChangeVote -/

/-- The existing vote and its replacement, as computed by the validation
prefix of `process_change_vote`. -/
structure ChangePlan where
  vote0 : Vote
  vote : Vote

/-- The validation prefix of `process_change_vote` (lines 969-1069), in
source order. -/
def change_vote_checks (poll_id new_option_index : ℕ)
    (new_encrypted_data new_zk_proof new_nonce : Option (List ℕ))
    (accounts : List Account) (now : ℕ) : Except PErr ChangePlan := do
  ensureE (¬accounts.length < 4) .notEnoughAccountKeys
  let voter_account := accounts.getD 0 dummyAccount
  ensureE (voter_account.is_signer = true) .missingRequiredSignature
  ensureE ((accounts.getD 1 dummyAccount).is_writable = true ∧
    (accounts.getD 2 dummyAccount).is_writable = true ∧
    (accounts.getD 3 dummyAccount).is_writable = true) .invalidAccountData
  let poll ← okOr (decode_poll (accounts.getD 2 dummyAccount).data) .invalidAccountData
  ensureE (poll.id = poll_id) .pollDoesNotExist
  ensureE (poll.is_active = true) .pollNotActive
  ensureE (poll.allow_revote = true) .revotingNotAllowed
  ensureE (¬now < poll.start_time) .pollNotStarted
  ensureE (¬poll.end_time < now) .pollEnded
  ensureE (¬poll.options.length ≤ new_option_index) .invalidOptionIndex
  let vote0 ← okOr (decode_vote (accounts.getD 1 dummyAccount).data) .invalidAccountData
  ensureE (vote0.voter = voter_account.key) .invalidAccountData
  ensureE (vote0.poll_id = poll_id) .invalidAccountData
  let vote : Vote :=
    { vote0 with
      option_index := new_option_index
      timestamp := now
      encrypted_data := new_encrypted_data
      zk_proof := new_zk_proof
      nonce := new_nonce }
  ensureE (¬(poll.is_private = true ∧ (match vote.zk_proof with
    | some proof => decide (proof.length = 0)
    | none => true) = true)) .invalidZkProof
  ensureE (¬(poll.is_encrypted = true ∧ vote.encrypted_data = none)) .invalidEncryption
  ensureE (¬(poll.is_encrypted = true ∧ vote.nonce = none)) .missingNonce
  return { vote0 := vote0, vote := vote }

/-- Models `process_change_vote` (lines 959-1090) up to the fee step:
persist the updated vote, then move the tally by the stored weight via
`update_vote_count_change`. -/
def change_vote_core (poll_id new_option_index : ℕ)
    (new_encrypted_data new_zk_proof new_nonce : Option (List ℕ))
    (accounts : List Account) (now : ℕ) : Except (PErr × List Account) (List Account) :=
  match change_vote_checks poll_id new_option_index new_encrypted_data new_zk_proof
      new_nonce accounts now with
  | .error e => .error (e, accounts)
  | .ok plan =>
    let a1 := accounts.set 1 { accounts.getD 1 dummyAccount with data := .voteD plan.vote }
    match update_vote_count_change (a1.getD 3 dummyAccount) plan.vote0.option_index
        new_option_index plan.vote.weight now with
    | .error e => .error (e, a1)
    | .ok vca => .ok (a1.set 3 vca)

/-- Models `process_change_vote` (lines 959-1090). -/
def process_change_vote (poll_id new_option_index : ℕ)
    (new_encrypted_data new_zk_proof new_nonce : Option (List ℕ)) (fee : FeeTx)
    (accounts : List Account) (now : ℕ) : Except PErr Unit × List Account :=
  wrapFee (change_vote_core poll_id new_option_index new_encrypted_data new_zk_proof
    new_nonce accounts now) fee

/-! #### ClosePoll -/

/-- The poll to deactivate and, for non-encrypted polls, the vote count
to finalize. -/
structure ClosePlan where
  poll : Poll
  vc : Option VoteCount

/-- The validation prefix of `process_close_poll` (lines 1098-1147), in
source order; for a non-encrypted poll the vote count is decoded here,
before any write. -/
def close_poll_checks (poll_id : ℕ)
    (accounts : List Account) (now : ℕ) : Except PErr ClosePlan := do
  ensureE (¬accounts.length < 3) .notEnoughAccountKeys
  let caller_account := accounts.getD 0 dummyAccount
  ensureE (caller_account.is_signer = true) .missingRequiredSignature
  ensureE ((accounts.getD 1 dummyAccount).is_writable = true ∧
    (accounts.getD 2 dummyAccount).is_writable = true) .invalidAccountData
  let poll ← okOr (decode_poll (accounts.getD 1 dummyAccount).data) .invalidAccountData
  ensureE (poll.id = poll_id) .pollDoesNotExist
  ensureE (poll.is_active = true) .pollNotActive
  ensureE (¬(now ≤ poll.end_time ∧ poll.creator ≠ caller_account.key)) .notPollCreator
  if poll.is_encrypted then
    return { poll := poll, vc := none }
  else
    let vc ← okOr (decode_vote_count (accounts.getD 2 dummyAccount).data) .invalidAccountData
    return { poll := poll, vc := some vc }

/-- Models `process_close_poll` (lines 1092-1168) up to the fee step:
for a non-encrypted poll the finalized vote count is written first, then
the deactivated poll. -/
def close_poll_core (poll_id : ℕ)
    (accounts : List Account) (now : ℕ) : Except (PErr × List Account) (List Account) :=
  match close_poll_checks poll_id accounts now with
  | .error e => .error (e, accounts)
  | .ok plan =>
    let a1 :=
      match plan.vc with
      | some vc => accounts.set 2 { accounts.getD 2 dummyAccount with
          data := .vcD { vc with is_finalized := true, last_updated := now } }
      | none => accounts
    .ok (a1.set 1 { accounts.getD 1 dummyAccount with
      data := .pollD { plan.poll with is_active := false } })

/-- Models `process_close_poll` (lines 1092-1168). -/
def process_close_poll (poll_id : ℕ) (fee : FeeTx)
    (accounts : List Account) (now : ℕ) : Except PErr Unit × List Account :=
  wrapFee (close_poll_core poll_id accounts now) fee

/-! #### DecryptResults -/

/-- The updated poll (auto-closed, key stored) and finalized vote count
computed by the validation prefix of `process_decrypt_results`. -/
structure DecryptPlan where
  poll2 : Poll
  vc1 : VoteCount

/-- The validation prefix of `process_decrypt_results` (lines 1242-1323),
in source order: creator-only, poll must be encrypted, must be closed or
past its end time (auto-closing it), vote count must belong to the poll
and not be finalized yet. -/
def decrypt_results_checks (poll_id : ℕ) (decryption_key : List ℕ)
    (accounts : List Account) (now : ℕ) : Except PErr DecryptPlan := do
  ensureE (¬accounts.length < 3) .notEnoughAccountKeys
  let creator_account := accounts.getD 0 dummyAccount
  ensureE (creator_account.is_signer = true) .missingRequiredSignature
  ensureE ((accounts.getD 1 dummyAccount).is_writable = true ∧
    (accounts.getD 2 dummyAccount).is_writable = true) .invalidAccountData
  ensureE ((accounts.drop 3).all (·.is_writable) = true) .invalidAccountData
  let poll ← okOr (decode_poll (accounts.getD 1 dummyAccount).data) .invalidAccountData
  ensureE (poll.id = poll_id) .pollDoesNotExist
  ensureE (poll.is_encrypted = true) .pollNotEncrypted
  ensureE (poll.creator = creator_account.key) .notPollCreator
  ensureE (¬(poll.is_active = true ∧ now ≤ poll.end_time)) .pollStillActive
  let poll1 := if poll.is_active then { poll with is_active := false } else poll
  let vc ← okOr (decode_vote_count (accounts.getD 2 dummyAccount).data) .invalidAccountData
  ensureE (vc.poll_id = poll_id) .invalidAccountData
  ensureE (vc.is_finalized = false) .resultsAlreadyFinalized
  let poll2 : Poll := { poll1 with decryption_key := some decryption_key }
  let vc1 : VoteCount := { vc with is_finalized := true, last_updated := now }
  return { poll2 := poll2, vc1 := vc1 }

/-- Models `process_decrypt_results` (lines 1235-1340) up to the fee
step: write the poll (with the stored key) first, then the finalized
vote count. -/
def decrypt_results_core (poll_id : ℕ) (decryption_key : List ℕ)
    (accounts : List Account) (now : ℕ) : Except (PErr × List Account) (List Account) :=
  match decrypt_results_checks poll_id decryption_key accounts now with
  | .error e => .error (e, accounts)
  | .ok plan =>
    let a1 := accounts.set 1 { accounts.getD 1 dummyAccount with data := .pollD plan.poll2 }
    .ok (a1.set 2 { accounts.getD 2 dummyAccount with data := .vcD plan.vc1 })

/-- Models `process_decrypt_results` (lines 1235-1340). -/
def process_decrypt_results (poll_id : ℕ) (decryption_key : List ℕ) (fee : FeeTx)
    (accounts : List Account) (now : ℕ) : Except PErr Unit × List Account :=
  wrapFee (decrypt_results_core poll_id decryption_key accounts now) fee

/-! #### DelegateVote, RevokeDelegation, UpdateTokenBalance -/

/-- Models `process_delegate_vote` (lines 1342-1410) up to the fee step. -/
def delegate_vote_core (poll_id : Option ℕ) (expiration : Option ℕ)
    (accounts : List Account) (now : ℕ) : Except (PErr × List Account) (List Account) :=
  if accounts.length < 3 then .error (.notEnoughAccountKeys, accounts) else
  let delegator_account := accounts.getD 0 dummyAccount
  let delegation_account := accounts.getD 1 dummyAccount
  let delegate_account := accounts.getD 2 dummyAccount
  if ¬delegator_account.is_signer then .error (.missingRequiredSignature, accounts) else
  if ¬delegation_account.is_writable then .error (.invalidAccountData, accounts) else
  if (match expiration with | some exp => decide (exp ≤ now) | none => false) then
    .error (.invalidPollParameters, accounts) else
  let delegation_id := wrapAdd64 now (delegator_account.key.getD 0 0)
  let delegation : Delegation :=
    { id := delegation_id, delegator := delegator_account.key,
      delegate := delegate_account.key, poll_id := poll_id, expiration := expiration,
      is_active := true }
  .ok (accounts.set 1 { delegation_account with data := .delegD delegation })

/-- Models `process_delegate_vote` (lines 1342-1410). -/
def process_delegate_vote (poll_id : Option ℕ) (expiration : Option ℕ) (fee : FeeTx)
    (accounts : List Account) (now : ℕ) : Except PErr Unit × List Account :=
  wrapFee (delegate_vote_core poll_id expiration accounts now) fee

/-- Models `process_revoke_delegation` (lines 1412-1465) up to the fee
step: the decode failure is mapped to `DelegationNotFound` by the
source. -/
def revoke_delegation_core (delegation_id : ℕ)
    (accounts : List Account) (now : ℕ) : Except (PErr × List Account) (List Account) :=
  if accounts.length < 2 then .error (.notEnoughAccountKeys, accounts) else
  let delegator_account := accounts.getD 0 dummyAccount
  let delegation_account := accounts.getD 1 dummyAccount
  if ¬delegator_account.is_signer then .error (.missingRequiredSignature, accounts) else
  if ¬delegation_account.is_writable then .error (.invalidAccountData, accounts) else
  match decode_delegation delegation_account.data with
  | none => .error (.delegationNotFound, accounts)
  | some delegation =>
    if delegation.id ≠ delegation_id then .error (.delegationNotFound, accounts) else
    if delegation.delegator ≠ delegator_account.key then .error (.notDelegator, accounts) else
    .ok (accounts.set 1 { delegation_account with
      data := .delegD { delegation with is_active := false } })

/-- Models `process_revoke_delegation` (lines 1412-1465). -/
def process_revoke_delegation (delegation_id : ℕ) (fee : FeeTx)
    (accounts : List Account) (now : ℕ) : Except PErr Unit × List Account :=
  wrapFee (revoke_delegation_core delegation_id accounts now) fee

/-- Models `process_update_token_balance` (lines 1467-1525) up to the fee
step. -/
def update_token_balance_core (token : Pubkey) (amount : ℕ)
    (accounts : List Account) (now : ℕ) : Except (PErr × List Account) (List Account) :=
  if accounts.length < 3 then .error (.notEnoughAccountKeys, accounts) else
  let owner_account := accounts.getD 0 dummyAccount
  let token_balance_account := accounts.getD 1 dummyAccount
  if ¬owner_account.is_signer then .error (.missingRequiredSignature, accounts) else
  if ¬token_balance_account.is_writable then .error (.invalidAccountData, accounts) else
  let token_balance : TokenBalance :=
    { owner := owner_account.key, token := token, amount := amount, last_updated := now }
  .ok (accounts.set 1 { token_balance_account with data := .tokD token_balance })

/-- Models `process_update_token_balance` (lines 1467-1525). -/
def process_update_token_balance (token : Pubkey) (amount : ℕ) (fee : FeeTx)
    (accounts : List Account) (now : ℕ) : Except PErr Unit × List Account :=
  wrapFee (update_token_balance_core token amount accounts now) fee
/-! ### Concrete scenario inputs used by the claim theorems -/

/-- A plain 3-option poll with revoting allowed (Scenario B of the spec). -/
def pollB : Poll :=
  { id := 1, creator := [9], title := [84], description := [], options := [[65], [66], [67]],
    start_time := 100, end_time := 200, is_private := false, allow_revote := true,
    is_active := true, is_weighted := false, allow_delegation := false, is_encrypted := false,
    decryption_key := none, weight_token := none, early_voter_bonus := 0 }

/-- Accounts for a CastVote on `pollB`: signing voter `[7]`, empty vote
account, the poll, a zeroed vote count, and an empty 1024-byte-bitmap
registry. -/
def accB : List Account :=
  [ ⟨[7], true, false, .rawD⟩,
    ⟨[2], false, true, .rawD⟩,
    ⟨[3], false, true, .pollD pollB⟩,
    ⟨[4], false, true, .vcD ⟨1, [0, 0, 0], 0, 0, false⟩⟩,
    ⟨[5], false, true, .regD ⟨1, List.replicate 1024 0, []⟩⟩ ]

/-- State after the voter casts option 1 on `pollB`. -/
def castB1 : Except PErr Unit × List Account :=
  process_cast_vote 1 1 none none none none (.decoded 1) accB 150

/-- State after the same voter then casts option 2 (a revote). -/
def castB2 : Except PErr Unit × List Account :=
  process_cast_vote 1 2 none none none none (.decoded 1) castB1.2 151

/-- A poll that has not started yet, used to exercise CancelPoll with a
failing fee transaction. -/
def pollC2 : Poll :=
  { id := 1, creator := [9], title := [84], description := [], options := [[65], [66]],
    start_time := 100, end_time := 200, is_private := false, allow_revote := false,
    is_active := true, is_weighted := false, allow_delegation := false, is_encrypted := false,
    decryption_key := none, weight_token := none, early_voter_bonus := 0 }

/-- Accounts for cancelling `pollC2`: the signing creator and the
writable poll account. -/
def accC2 : List Account :=
  [ ⟨[9], true, false, .rawD⟩,
    ⟨[2], false, true, .pollD pollC2⟩ ]

/-- The effect of one CastVote call on the voter registry (lines
794-809): a registered voter (revote) leaves it unchanged, an
unregistered voter is added. -/
def cast_registry_step (r : VoterRegistry) (v : Pubkey) : VoterRegistry :=
  if (find_voter_index r v).isSome then r else add_voter_to_registry r v

/-- The bitmap bit addressed by a voter's hash slot is in range and set. -/
def voter_slot_set (r : VoterRegistry) (v : Pubkey) : Prop :=
  hash_pubkey v % 8192 / 8 < r.voter_bitmap.length ∧
  (r.voter_bitmap.getD (hash_pubkey v % 8192 / 8) 0).testBit (hash_pubkey v % 8192 % 8) = true

/-- Registry invariant: every listed voter has their bitmap bit set (so a
clear bit proves absence from the list). -/
def RegInv (r : VoterRegistry) : Prop := ∀ v ∈ r.voters, voter_slot_set r v

/-- The voter registry written by CreatePoll (line 604-608): zero bitmap
of 1024 bytes, empty list. -/
def initial_registry (pid : ℕ) : VoterRegistry :=
  { poll_id := pid, voter_bitmap := List.replicate 1024 0, voters := [] }

/-- Scenario C poll: weighted by token `[11]`, early_voter_bonus 10,
delegation allowed, running from 100 to 1100. -/
def pollW : Poll :=
  { id := 1, creator := [9], title := [84], description := [], options := [[65], [66]],
    start_time := 100, end_time := 1100, is_private := false, allow_revote := false,
    is_active := true, is_weighted := true, allow_delegation := true, is_encrypted := false,
    decryption_key := none, weight_token := some [11], early_voter_bonus := 10 }

/-- An active delegation from voter `[7]` to delegate `[8]`, scoped to
poll 1, with no expiration. -/
def delegW : Delegation :=
  { id := 5, delegator := [7], delegate := [8], poll_id := some 1, expiration := none,
    is_active := true }

/-- Token balance of 100 units of token `[11]` owned by voter `[7]`. -/
def tokW : TokenBalance := { owner := [7], token := [11], amount := 100, last_updated := 0 }

/-- Accounts for a weighted, delegated CastVote on `pollW`: voter, vote,
poll, vote count, registry, delegation, token balance. -/
def accW : List Account :=
  [ ⟨[7], true, false, .rawD⟩,
    ⟨[2], false, true, .rawD⟩,
    ⟨[3], false, true, .pollD pollW⟩,
    ⟨[4], false, true, .vcD ⟨1, [0, 0], 0, 0, false⟩⟩,
    ⟨[5], false, true, .regD (initial_registry 1)⟩,
    ⟨[6], false, false, .delegD delegW⟩,
    ⟨[10], false, false, .tokD tokW⟩ ]

/-- The weighted CastVote of Scenario C: option 0, cast exactly at
`start_time` = 100. -/
def castW : Except PErr Unit × List Account :=
  process_cast_vote 1 0 none none none none (.decoded 1) accW 100

/-- An encrypted poll that is already closed (`is_active = false`). -/
def pollE : Poll :=
  { id := 1, creator := [9], title := [84], description := [], options := [[65], [66]],
    start_time := 100, end_time := 200, is_private := false, allow_revote := false,
    is_active := false, is_weighted := false, allow_delegation := false, is_encrypted := true,
    decryption_key := none, weight_token := none, early_voter_bonus := 0 }

/-- Accounts holding `pollE` and an already-finalized vote count. -/
def accE : List Account :=
  [ ⟨[9], true, false, .rawD⟩,
    ⟨[2], false, true, .pollD pollE⟩,
    ⟨[3], false, true, .vcD ⟨1, [4, 2], 6, 150, true⟩⟩ ]

/-- An active, non-encrypted poll used to exercise ClosePoll. -/
def pollCl : Poll :=
  { id := 1, creator := [9], title := [84], description := [], options := [[65], [66], [67]],
    start_time := 100, end_time := 200, is_private := false, allow_revote := true,
    is_active := true, is_weighted := false, allow_delegation := false, is_encrypted := false,
    decryption_key := none, weight_token := none, early_voter_bonus := 0 }

/-- Accounts for closing `pollCl`: the signing creator, the poll and the
vote count. -/
def accCl : List Account :=
  [ ⟨[9], true, false, .rawD⟩,
    ⟨[2], false, true, .pollD pollCl⟩,
    ⟨[3], false, true, .vcD ⟨1, [5, 10, 3], 18, 0, false⟩⟩ ]

/-- Accounts for a fresh CreatePoll: signing creator and three raw
writable accounts. -/
def accCr : List Account :=
  [ ⟨[9], true, true, .rawD⟩,
    ⟨[2], false, true, .rawD⟩,
    ⟨[3], false, true, .rawD⟩,
    ⟨[4], false, true, .rawD⟩ ]

/-- The guarded saturating decrement of `update_vote_count` /
`update_vote_count_change` (lines 1641-1644, 1675-1678): skip when the
index is out of range. -/
def dec_at (l : List ℕ) (i w : ℕ) : List ℕ :=
  if i < l.length then l.set i (satSub64 (l.getD i 0) w) else l

/-- The guarded saturating increment of `update_vote_count` /
`update_vote_count_change` (lines 1650-1653, 1680-1683): skip when the
index is out of range. -/
def inc_at (l : List ℕ) (i w : ℕ) : List ℕ :=
  if i < l.length then l.set i (satAdd64 (l.getD i 0) w) else l

/-! ### Binary64 rounding lemmas

Exact facts about the rounding kernel, used to settle the weighted-bonus
claim: a nonzero value divided by itself rounds to exactly one, a zero
product leaves an addend unchanged, so the bonus multiplier at full
progress is exactly one. -/

theorem size_div2 (n : ℕ) (h : 0 < n) : n.size = (n / 2).size + 1 := by
  apply le_antisymm
  · rw [Nat.size_le]
    have h1 : n / 2 < 2 ^ (n / 2).size := Nat.lt_size_self _
    have : n < 2 * 2 ^ (n / 2).size := by omega
    simpa [pow_succ, mul_comm] using this
  · rcases Nat.eq_zero_or_pos (n / 2) with h0 | h0
    · have hn1 : n = 1 := by omega
      subst hn1; simp [h0, Nat.size_one]
    · have hs : 0 < (n / 2).size := Nat.size_pos.2 h0
      have h2 : 2 ^ ((n / 2).size - 1) ≤ n / 2 := by
        have := Nat.lt_size.1 (by omega : (n / 2).size - 1 < (n / 2).size)
        exact this
      have h3 : 2 ^ (n / 2).size ≤ n := by
        have : 2 ^ (n / 2).size = 2 * 2 ^ ((n / 2).size - 1) := by
          rw [← pow_succ']
          congr 1
          omega
        omega
      have := Nat.lt_size.2 h3
      omega

theorem nbitsA_size : ∀ fuel n, n < 2 ^ fuel → nbitsA fuel n = n.size := by
  intro fuel
  induction fuel with
  | zero => intro n h; interval_cases n; simp [nbitsA, Nat.size_zero]
  | succ f ih =>
    intro n h
    unfold nbitsA
    by_cases hn : n = 0
    · simp [hn, Nat.size_zero]
    · have hlt : n / 2 < 2 ^ f := by
        have : n < 2 * 2 ^ f := by
          have := pow_succ 2 f
          omega
        omega
      rw [if_neg hn, ih _ hlt, ← size_div2 n (by omega)]

theorem nbits_eq_size (n : ℕ) : nbits n = n.size :=
  nbitsA_size n n (Nat.lt_two_pow n)

theorem rne_exact (A : ℕ) : rne A 1 = A := by
  simp [rne, Nat.mod_one]

theorem rne_pos (A B : ℕ) (hB : 0 < B) (hBA : B ≤ A) : 0 < rne A B := by
  have hf : 0 < A / B := Nat.div_pos hBA hB
  simp only [rne]
  split_ifs <;> omega

theorem qexpPQ_pow2 (k : ℕ) : qexpPQ (2 ^ k) 1 = k := by
  have hnb : nbits (2 ^ k) = k + 1 := by rw [nbits_eq_size, Nat.size_pow]
  have hnb1 : nbits 1 = 1 := by rw [nbits_eq_size, Nat.size_one]
  simp only [qexpPQ]
  rw [hnb, hnb1]
  have he0 : ((k + 1 : ℕ) : ℤ) - ((1 : ℕ) : ℤ) = (k : ℤ) := by push_cast; ring
  rw [he0]
  have hple : pow2LE (k : ℤ) (2 ^ k) 1 := by
    unfold pow2LE
    rw [if_pos (Int.natCast_nonneg k), Int.toNat_natCast, one_mul]
  rw [if_pos hple]

theorem roundPQ_pow2 (k : ℕ) : roundPQ (2 ^ k) 1 = ⟨((2 ^ 52 : ℕ) : ℤ), (k : ℤ) - 52⟩ := by
  simp only [roundPQ]
  rw [qexpPQ_pow2]
  by_cases hk : k ≤ 52
  · have h52 : (0 : ℤ) ≤ 52 - k := by omega
    rw [if_pos h52, if_pos h52]
    have ht : ((52 : ℤ) - k).toNat = 52 - k := by omega
    rw [ht]
    have hp : 2 ^ k * 2 ^ (52 - k) = 2 ^ 52 := by
      rw [← pow_add]; congr 1; omega
    rw [hp, rne_exact]
  · have h52 : ¬(0 : ℤ) ≤ 52 - k := by omega
    rw [if_neg h52, if_neg h52]
    have ht : ((k : ℤ) - 52).toNat = k - 52 := by omega
    rw [ht, one_mul]
    have hB : 0 < 2 ^ (k - 52) := by positivity
    have hrne : rne (2 ^ k) (2 ^ (k - 52)) = 2 ^ 52 := by
      have hdvd : 2 ^ k = 2 ^ 52 * 2 ^ (k - 52) := by
        rw [← pow_add]; congr 1; omega
      unfold rne
      rw [hdvd, Nat.mul_div_cancel _ hB, Nat.mul_mod_left]
      simp [hB]
    rw [hrne]

theorem qexpPQ_self (p : ℕ) (h : 0 < p) : qexpPQ p p = 0 := by
  simp only [qexpPQ]
  have h0 : (nbits p : ℤ) - (nbits p : ℤ) = 0 := by ring
  rw [h0]
  have hple : pow2LE (0 : ℤ) p p := by
    unfold pow2LE
    simp
  rw [if_pos hple]

theorem roundPQ_self (p : ℕ) (h : 0 < p) : roundPQ p p = ⟨((2 ^ 52 : ℕ) : ℤ), -52⟩ := by
  simp only [roundPQ]
  rw [qexpPQ_self p h]
  norm_num
  unfold rne
  rw [show ((52 : ℤ)).toNat = 52 from rfl]
  rw [Nat.mul_div_cancel_left _ h, Nat.mul_mod_right]
  simp [h]

theorem qexpPQ_d1 (d : ℕ) (h : 0 < d) : qexpPQ d 1 = (d.size : ℤ) - 1 := by
  have hnb : nbits d = d.size := nbits_eq_size d
  have hnb1 : nbits 1 = 1 := by rw [nbits_eq_size, Nat.size_one]
  have hs : 0 < d.size := Nat.size_pos.2 h
  simp only [qexpPQ]
  rw [hnb, hnb1]
  push_cast
  have hple : pow2LE ((d.size : ℤ) - 1) d 1 := by
    unfold pow2LE
    rw [if_pos (by omega)]
    rw [show ((d.size : ℤ) - 1).toNat = d.size - 1 from by omega, one_mul]
    exact Nat.lt_size.1 (by omega)
  rw [if_pos hple]

theorem toF64_pos_m (d : ℕ) (h : 0 < d) : 0 < (toF64 d).m := by
  have hs : 0 < d.size := Nat.size_pos.2 h
  unfold toF64 roundND
  rw [if_neg one_ne_zero, if_neg (by exact_mod_cast h.ne'), if_pos (by exact_mod_cast h)]
  rw [Int.toNat_natCast]
  simp only [roundPQ]
  rw [qexpPQ_d1 d h]
  by_cases hk : d.size ≤ 53
  · have h52 : (0 : ℤ) ≤ 52 - ((d.size : ℤ) - 1) := by omega
    rw [if_pos h52, if_pos h52, rne_exact]
    have : 0 < d * 2 ^ ((52 : ℤ) - ((d.size : ℤ) - 1)).toNat := by positivity
    exact_mod_cast this
  · have h52 : ¬(0 : ℤ) ≤ 52 - ((d.size : ℤ) - 1) := by omega
    rw [if_neg h52, if_neg h52, one_mul]
    have ht : (((d.size : ℤ) - 1) - 52).toNat = d.size - 53 := by omega
    rw [ht]
    have hBA : 2 ^ (d.size - 53) ≤ d := by
      calc 2 ^ (d.size - 53) ≤ 2 ^ (d.size - 1) :=
            Nat.pow_le_pow_right (by norm_num) (by omega)
        _ ≤ d := Nat.lt_size.1 (by omega)
    have := rne_pos d (2 ^ (d.size - 53)) (by positivity) hBA
    exact_mod_cast this

theorem F64_div_self (x : F64) (hx : 0 < x.m) : F64.div x x = ⟨((2 ^ 52 : ℕ) : ℤ), -52⟩ := by
  unfold F64.div
  rw [if_neg hx.ne', if_pos hx]
  simp only [roundSc]
  unfold roundND
  rw [if_neg (by omega : x.m.toNat ≠ 0), if_neg hx.ne', if_pos hx]
  rw [roundPQ_self x.m.toNat (by omega)]
  simp

theorem F64_mul_zero (y : F64) (c : ℤ) : F64.mul y ⟨0, c⟩ = ⟨0, y.e + c⟩ := by
  unfold F64.mul roundSc roundND
  simp

theorem F64_add_one_zero (c : ℤ) :
    F64.add ⟨((2 ^ 52 : ℕ) : ℤ), -52⟩ ⟨0, c⟩ = ⟨((2 ^ 52 : ℕ) : ℤ), -52⟩ := by
  unfold F64.add
  by_cases hc : (-52 : ℤ) ≤ c
  · rw [min_eq_left hc]
    simp only []
    have hn : (((2 ^ 52 : ℕ) : ℤ)) * 2 ^ ((-52 : ℤ) - -52).toNat + 0 * 2 ^ (c - -52).toNat
        = ((2 ^ 52 : ℕ) : ℤ) := by norm_num
    rw [hn]
    simp only [roundSc]
    unfold roundND
    rw [if_neg one_ne_zero, if_neg (by positivity : ((2 ^ 52 : ℕ) : ℤ) ≠ 0),
      if_pos (by positivity : (0 : ℤ) < ((2 ^ 52 : ℕ) : ℤ))]
    rw [show (((2 ^ 52 : ℕ) : ℤ)).toNat = 2 ^ 52 from by simp]
    rw [roundPQ_pow2 52]
    norm_num
  · rw [min_eq_right (by omega : c ≤ (-52 : ℤ))]
    simp only []
    have hn : (((2 ^ 52 : ℕ) : ℤ)) * 2 ^ ((-52 : ℤ) - c).toNat + 0 * 2 ^ (c - c).toNat
        = ((2 ^ (52 + ((-52 : ℤ) - c).toNat) : ℕ) : ℤ) := by
      push_cast
      rw [pow_add]
      ring
    rw [hn]
    simp only [roundSc]
    unfold roundND
    rw [if_neg one_ne_zero,
      if_neg (by positivity : ((2 ^ (52 + ((-52 : ℤ) - c).toNat) : ℕ) : ℤ) ≠ 0),
      if_pos (by positivity : (0 : ℤ) < ((2 ^ (52 + ((-52 : ℤ) - c).toNat) : ℕ) : ℤ))]
    rw [Int.toNat_natCast]
    rw [roundPQ_pow2]
    congr 1
    simp only []
    omega

theorem multiplier_at_full (bonus d : ℕ) (hd : 0 < d) :
    F64.add (toF64 1) (F64.mul (F64.div (toF64 bonus) (toF64 100))
      (F64.sub (toF64 1) (F64.div (toF64 d) (toF64 d)))) = ⟨((2 ^ 52 : ℕ) : ℤ), -52⟩ := by
  have h1 : toF64 1 = ⟨((2 ^ 52 : ℕ) : ℤ), -52⟩ := by
    unfold toF64 roundND
    norm_num
    exact roundPQ_self 1 one_pos
  have hdiv : F64.div (toF64 d) (toF64 d) = ⟨((2 ^ 52 : ℕ) : ℤ), -52⟩ :=
    F64_div_self _ (toF64_pos_m d hd)
  rw [hdiv, h1]
  have hsub : F64.sub ⟨((2 ^ 52 : ℕ) : ℤ), -52⟩ ⟨((2 ^ 52 : ℕ) : ℤ), -52⟩ = ⟨0, -52⟩ := by
    unfold F64.sub F64.add
    norm_num
    unfold roundSc roundND
    norm_num
  rw [hsub, F64_mul_zero]
  exact F64_add_one_zero _

theorem toF64_one : toF64 1 = ⟨((2 ^ 52 : ℕ) : ℤ), -52⟩ := by
  unfold toF64 roundND
  norm_num
  exact roundPQ_self 1 one_pos

theorem F64_val_one : F64.val ⟨((2 ^ 52 : ℕ) : ℤ), -52⟩ = 1 := by
  unfold F64.val
  push_cast
  rw [zpow_neg]
  norm_num

/-! ### Claim theorems -/

set_option maxRecDepth 40000 in
/-- C1: the tally-conservation claim fails on the code.  On Scenario B
(3-option poll, allow_revote, weight-1 voter casting option 1 then
option 2) the spec expects counts to go [0,1,0] → [0,0,1].  The code
instead yields [0,1,1]: `process_cast_vote` persists the new vote record
*before* calling `update_vote_count`, whose previous-option argument is
produced by `get_previous_vote` reading that same, already overwritten,
vote account — so the revote decrements the *new* option (fresh count 0,
saturating to 0) instead of the old one, and the old option keeps its
count.  The sum of counts is then 2 while the single current ballot of
the single voter weighs 1, violating `Σ counts = Σ weight`. -/
theorem c1_scenarioB_revote_miscount :
    castB1.1 = .ok () ∧
    decode_vote_count ((castB1.2.getD 3 dummyAccount).data) = some ⟨1, [0, 1, 0], 1, 150, false⟩ ∧
    castB2.1 = .ok () ∧
    decode_vote_count ((castB2.2.getD 3 dummyAccount).data) = some ⟨1, [0, 1, 1], 1, 151, false⟩ ∧
    decode_vote ((castB2.2.getD 1 dummyAccount).data) =
      some ⟨1, [7], 2, 151, 1, none, none, none, none⟩ ∧
    ([0, 1, 1] : List ℕ) ≠ [0, 0, 1] := by
  refine ⟨by decide, by decide, by decide, by decide, by decide, by decide⟩

/-! ### Fee-step lemmas (shared by the C2 theorem) -/

/-- The fee step never modifies account state. -/
theorem finish_with_fee_state (st : List Account) (fee : FeeTx) :
    (finish_with_fee st fee).2 = st := by
  cases fee with
  | malformed => rfl
  | decoded n => cases n <;> rfl

/-- The post-call state of a wrapped handler does not depend on the fee
argument: all writes happen in the core, before the fee step. -/
theorem wrapFee_state_indep (r : Except (PErr × List Account) (List Account))
    (fee1 fee2 : FeeTx) : (wrapFee r fee1).2 = (wrapFee r fee2).2 := by
  cases r with
  | error es => rfl
  | ok st => rw [wrapFee, wrapFee, finish_with_fee_state, finish_with_fee_state]

/-- A call that succeeds with a well-formed fee fails with exactly
`InvalidFeeTransaction` when the fee transaction is malformed and with
exactly `InsufficientFees` when it has no input. -/
theorem wrapFee_fee_errors (r : Except (PErr × List Account) (List Account)) :
    (wrapFee r (.decoded 1)).1 = .ok () →
      (wrapFee r .malformed).1 = .error .invalidFeeTransaction ∧
      (wrapFee r (.decoded 0)).1 = .error .insufficientFees := by
  cases r with
  | error es => exact fun h => absurd h (by simp [wrapFee])
  | ok st => exact fun _ => ⟨rfl, rfl⟩

/-- C2, counterexample: a CancelPoll whose fee transaction is malformed
does fail with `InvalidFeeTransaction`, but the poll buffer has already
been rewritten (`is_active` flipped to false) when the failure is
raised: the pre-call bytes are not preserved, contradicting the claim
that no durable mutation survives in the component itself (rollback is
the substrate's atomic-commit responsibility). -/
theorem c2_counterexample_cancel_mutates_despite_fee_failure :
    (process_cancel_poll 1 .malformed accC2 50).1 = .error .invalidFeeTransaction ∧
    (process_cancel_poll 1 .malformed accC2 50).2 ≠ accC2 ∧
    decode_poll (((process_cancel_poll 1 .malformed accC2 50).2.getD 1 dummyAccount).data) =
      some { pollC2 with is_active := false } := by
  refine ⟨by decide, by decide, by decide⟩

/-- C2 (amended): for every mutating operation, a malformed fee
transaction makes an otherwise-successful call fail with
`InvalidFeeTransaction`, and a fee transaction without inputs makes it
fail with `InsufficientFees` (the fee step runs last); the post-call
account state, however, is identical whatever the fee argument is, so
the buffer writes performed by the handler before the fee step survive a
fee failure — durable rollback is left to the substrate. -/
theorem c2_fee_errors_checked_last :
    ((∀ t d o s e p r w dl en wt b (accs : List Account) (now : ℕ) (fee1 fee2 : FeeTx),
        (process_create_poll t d o s e p r w dl en wt b fee1 accs now).2 =
        (process_create_poll t d o s e p r w dl en wt b fee2 accs now).2) ∧
     (∀ t d o s e p r w dl en wt b (accs : List Account) (now : ℕ),
        (process_create_poll t d o s e p r w dl en wt b (.decoded 1) accs now).1 = .ok () →
        (process_create_poll t d o s e p r w dl en wt b .malformed accs now).1 =
          .error .invalidFeeTransaction ∧
        (process_create_poll t d o s e p r w dl en wt b (.decoded 0) accs now).1 =
          .error .insufficientFees)) ∧
    ((∀ pid (accs : List Account) (now : ℕ) (fee1 fee2 : FeeTx),
        (process_cancel_poll pid fee1 accs now).2 = (process_cancel_poll pid fee2 accs now).2) ∧
     (∀ pid (accs : List Account) (now : ℕ),
        (process_cancel_poll pid (.decoded 1) accs now).1 = .ok () →
        (process_cancel_poll pid .malformed accs now).1 = .error .invalidFeeTransaction ∧
        (process_cancel_poll pid (.decoded 0) accs now).1 = .error .insufficientFees)) ∧
    ((∀ pid oi w ed zk non (accs : List Account) (now : ℕ) (fee1 fee2 : FeeTx),
        (process_cast_vote pid oi w ed zk non fee1 accs now).2 =
        (process_cast_vote pid oi w ed zk non fee2 accs now).2) ∧
     (∀ pid oi w ed zk non (accs : List Account) (now : ℕ),
        (process_cast_vote pid oi w ed zk non (.decoded 1) accs now).1 = .ok () →
        (process_cast_vote pid oi w ed zk non .malformed accs now).1 =
          .error .invalidFeeTransaction ∧
        (process_cast_vote pid oi w ed zk non (.decoded 0) accs now).1 =
          .error .insufficientFees)) ∧
    ((∀ pid oi ed zk non (accs : List Account) (now : ℕ) (fee1 fee2 : FeeTx),
        (process_change_vote pid oi ed zk non fee1 accs now).2 =
        (process_change_vote pid oi ed zk non fee2 accs now).2) ∧
     (∀ pid oi ed zk non (accs : List Account) (now : ℕ),
        (process_change_vote pid oi ed zk non (.decoded 1) accs now).1 = .ok () →
        (process_change_vote pid oi ed zk non .malformed accs now).1 =
          .error .invalidFeeTransaction ∧
        (process_change_vote pid oi ed zk non (.decoded 0) accs now).1 =
          .error .insufficientFees)) ∧
    ((∀ pid (accs : List Account) (now : ℕ) (fee1 fee2 : FeeTx),
        (process_close_poll pid fee1 accs now).2 = (process_close_poll pid fee2 accs now).2) ∧
     (∀ pid (accs : List Account) (now : ℕ),
        (process_close_poll pid (.decoded 1) accs now).1 = .ok () →
        (process_close_poll pid .malformed accs now).1 = .error .invalidFeeTransaction ∧
        (process_close_poll pid (.decoded 0) accs now).1 = .error .insufficientFees)) ∧
    ((∀ pid k (accs : List Account) (now : ℕ) (fee1 fee2 : FeeTx),
        (process_decrypt_results pid k fee1 accs now).2 =
        (process_decrypt_results pid k fee2 accs now).2) ∧
     (∀ pid k (accs : List Account) (now : ℕ),
        (process_decrypt_results pid k (.decoded 1) accs now).1 = .ok () →
        (process_decrypt_results pid k .malformed accs now).1 =
          .error .invalidFeeTransaction ∧
        (process_decrypt_results pid k (.decoded 0) accs now).1 = .error .insufficientFees)) ∧
    ((∀ pid exp (accs : List Account) (now : ℕ) (fee1 fee2 : FeeTx),
        (process_delegate_vote pid exp fee1 accs now).2 =
        (process_delegate_vote pid exp fee2 accs now).2) ∧
     (∀ pid exp (accs : List Account) (now : ℕ),
        (process_delegate_vote pid exp (.decoded 1) accs now).1 = .ok () →
        (process_delegate_vote pid exp .malformed accs now).1 =
          .error .invalidFeeTransaction ∧
        (process_delegate_vote pid exp (.decoded 0) accs now).1 = .error .insufficientFees)) ∧
    ((∀ did (accs : List Account) (now : ℕ) (fee1 fee2 : FeeTx),
        (process_revoke_delegation did fee1 accs now).2 =
        (process_revoke_delegation did fee2 accs now).2) ∧
     (∀ did (accs : List Account) (now : ℕ),
        (process_revoke_delegation did (.decoded 1) accs now).1 = .ok () →
        (process_revoke_delegation did .malformed accs now).1 =
          .error .invalidFeeTransaction ∧
        (process_revoke_delegation did (.decoded 0) accs now).1 = .error .insufficientFees)) ∧
    ((∀ tok amt (accs : List Account) (now : ℕ) (fee1 fee2 : FeeTx),
        (process_update_token_balance tok amt fee1 accs now).2 =
        (process_update_token_balance tok amt fee2 accs now).2) ∧
     (∀ tok amt (accs : List Account) (now : ℕ),
        (process_update_token_balance tok amt (.decoded 1) accs now).1 = .ok () →
        (process_update_token_balance tok amt .malformed accs now).1 =
          .error .invalidFeeTransaction ∧
        (process_update_token_balance tok amt (.decoded 0) accs now).1 =
          .error .insufficientFees)) :=
  ⟨⟨fun _ _ _ _ _ _ _ _ _ _ _ _ _ _ fee1 fee2 => wrapFee_state_indep _ fee1 fee2,
    fun _ _ _ _ _ _ _ _ _ _ _ _ _ _ => wrapFee_fee_errors _⟩,
   ⟨fun _ _ _ fee1 fee2 => wrapFee_state_indep _ fee1 fee2,
    fun _ _ _ => wrapFee_fee_errors _⟩,
   ⟨fun _ _ _ _ _ _ _ _ fee1 fee2 => wrapFee_state_indep _ fee1 fee2,
    fun _ _ _ _ _ _ _ _ => wrapFee_fee_errors _⟩,
   ⟨fun _ _ _ _ _ _ _ fee1 fee2 => wrapFee_state_indep _ fee1 fee2,
    fun _ _ _ _ _ _ _ => wrapFee_fee_errors _⟩,
   ⟨fun _ _ _ fee1 fee2 => wrapFee_state_indep _ fee1 fee2,
    fun _ _ _ => wrapFee_fee_errors _⟩,
   ⟨fun _ _ _ _ fee1 fee2 => wrapFee_state_indep _ fee1 fee2,
    fun _ _ _ _ => wrapFee_fee_errors _⟩,
   ⟨fun _ _ _ _ fee1 fee2 => wrapFee_state_indep _ fee1 fee2,
    fun _ _ _ _ => wrapFee_fee_errors _⟩,
   ⟨fun _ _ _ fee1 fee2 => wrapFee_state_indep _ fee1 fee2,
    fun _ _ _ => wrapFee_fee_errors _⟩,
   ⟨fun _ _ _ _ fee1 fee2 => wrapFee_state_indep _ fee1 fee2,
    fun _ _ _ _ => wrapFee_fee_errors _⟩⟩

/-- C2, witness: on the concrete CancelPoll state `accC2` the call with a
well-formed fee succeeds, so the amended theorem yields the two fee
error codes at this input. -/
theorem c2_fee_errors_checked_last_witness :
    (process_cancel_poll 1 .malformed accC2 50).1 = .error .invalidFeeTransaction ∧
    (process_cancel_poll 1 (.decoded 0) accC2 50).1 = .error .insufficientFees :=
  c2_fee_errors_checked_last.2.1.2 1 accC2 50 (by decide)

/-! ### Voter-registry lemmas (C3) and Except-pipeline destructuring -/

theorem add_voter_voters (r : VoterRegistry) (v : Pubkey) :
    (add_voter_to_registry r v).voters = r.voters ++ [v] := by
  simp only [add_voter_to_registry]

theorem add_voter_bitmap_len (r : VoterRegistry) (v : Pubkey) :
    r.voter_bitmap.length ≤ (add_voter_to_registry r v).voter_bitmap.length ∧
    hash_pubkey v % 8192 / 8 < (add_voter_to_registry r v).voter_bitmap.length := by
  simp only [add_voter_to_registry, List.length_set]
  split
  · omega
  · simp only [List.length_append, List.length_replicate]
    omega

theorem add_voter_slot_set (r : VoterRegistry) (v : Pubkey) :
    voter_slot_set (add_voter_to_registry r v) v := by
  refine ⟨(add_voter_bitmap_len r v).2, ?_⟩
  simp only [add_voter_to_registry]
  split
  case isTrue h =>
    simp only [List.getD_eq_getElem?_getD, List.getElem?_set_eq_of_lt _ h]
    simp [Nat.testBit_or, Nat.testBit_two_pow_self]
  case isFalse h =>
    have hlt : hash_pubkey v % 8192 / 8 <
        (r.voter_bitmap ++ List.replicate (hash_pubkey v % 8192 / 8 + 1 - r.voter_bitmap.length) 0).length := by
      simp only [List.length_append, List.length_replicate]; omega
    simp only [List.getD_eq_getElem?_getD, List.getElem?_set_eq_of_lt _ hlt]
    simp [Nat.testBit_or, Nat.testBit_two_pow_self]

theorem add_voter_preserves_slot (r : VoterRegistry) (v w : Pubkey)
    (hw : voter_slot_set r w) : voter_slot_set (add_voter_to_registry r v) w := by
  obtain ⟨hwl, hwb⟩ := hw
  refine ⟨lt_of_lt_of_le hwl (add_voter_bitmap_len r v).1, ?_⟩
  simp only [add_voter_to_registry]
  by_cases hsame : hash_pubkey w % 8192 / 8 = hash_pubkey v % 8192 / 8
  · split
    next h =>
      simp only [List.getD_eq_getElem?_getD, hsame, List.getElem?_set_eq_of_lt _ h]
      simp only [← hsame, Option.getD_some, Nat.testBit_or, Bool.or_eq_true]
      exact Or.inl (by simpa [List.getD_eq_getElem?_getD] using hwb)
    next h =>
      omega
  · split
    next h =>
      simp only [List.getD_eq_getElem?_getD, List.getElem?_set_ne (fun hh => hsame hh.symm)]
      simpa [List.getD_eq_getElem?_getD] using hwb
    next h =>
      rw [List.getD_eq_getElem?_getD, List.getElem?_set_ne (fun hh => hsame hh.symm),
        List.getElem?_append, if_pos hwl]
      simpa [List.getD_eq_getElem?_getD] using hwb

theorem RegInv_add (r : VoterRegistry) (v : Pubkey) (hinv : RegInv r) :
    RegInv (add_voter_to_registry r v) := by
  intro w hw
  rw [add_voter_voters] at hw
  rcases List.mem_append.mp hw with hmem | hmem
  · exact add_voter_preserves_slot r v w (hinv w hmem)
  · rw [List.mem_singleton.mp hmem]
    exact add_voter_slot_set r v

theorem find_voter_index_isSome_iff (r : VoterRegistry) (v : Pubkey) (hinv : RegInv r) :
    (find_voter_index r v).isSome = true ↔ v ∈ r.voters := by
  unfold find_voter_index
  by_cases hbi : hash_pubkey v % 8192 / 8 < r.voter_bitmap.length
  · simp only [if_pos hbi]
    by_cases hbit : (r.voter_bitmap.getD (hash_pubkey v % 8192 / 8) 0).testBit
        (hash_pubkey v % 8192 % 8) = true
    · simp only [hbit, if_pos]
      rw [List.findIdx?_isSome]
      simp
    · simp only [hbit]
      constructor
      · intro h
        simp at h
      · intro hmem
        exact absurd (hinv v hmem).2 hbit
  · rw [if_neg hbi]
    constructor
    · intro h
      simp at h
    · intro hmem
      exact absurd (hinv v hmem).1 hbi

theorem clear_bit_not_mem (r : VoterRegistry) (v : Pubkey) (hinv : RegInv r)
    (h : ¬voter_slot_set r v) : v ∉ r.voters :=
  fun hmem => h (hinv v hmem)

theorem RegInv_step (r : VoterRegistry) (v : Pubkey) (hinv : RegInv r) :
    RegInv (cast_registry_step r v) := by
  unfold cast_registry_step
  split
  · exact hinv
  · exact RegInv_add r v hinv

theorem Nodup_step (r : VoterRegistry) (v : Pubkey) (hinv : RegInv r)
    (hnd : r.voters.Nodup) : (cast_registry_step r v).voters.Nodup := by
  unfold cast_registry_step
  split
  case isTrue h => exact hnd
  case isFalse h =>
    rw [add_voter_voters, List.nodup_append]
    refine ⟨hnd, List.nodup_singleton v, ?_⟩
    intro a ha hav
    rw [List.mem_singleton.mp hav] at ha
    rw [← find_voter_index_isSome_iff r v hinv] at ha
    simp_all

theorem fold_registry_inv (vs : List Pubkey) (r : VoterRegistry)
    (hinv : RegInv r) (hnd : r.voters.Nodup) :
    RegInv (vs.foldl cast_registry_step r) ∧ (vs.foldl cast_registry_step r).voters.Nodup := by
  induction vs generalizing r with
  | nil => exact ⟨hinv, hnd⟩
  | cons v vs ih =>
    exact ih (cast_registry_step r v) (RegInv_step r v hinv) (Nodup_step r v hinv hnd)

theorem bind_ok_iff {ε α β : Type} (x : Except ε α) (f : α → Except ε β) (b : β) :
    (x >>= f) = .ok b ↔ ∃ a, x = .ok a ∧ f a = .ok b := by
  cases x <;> simp [Bind.bind, Except.bind]

theorem ensureE_ok_iff (c : Prop) [Decidable c] (e : PErr) (u : Unit) :
    ensureE c e = .ok u ↔ c := by
  by_cases h : c <;> simp [ensureE, h]

theorem okOr_ok_iff {α : Type} (o : Option α) (e : PErr) (a : α) :
    okOr o e = .ok a ↔ o = some a := by
  cases o <;> simp [okOr]

theorem pure_ok_iff {ε α : Type} (a b : α) :
    (pure a : Except ε α) = .ok b ↔ a = b := by
  simp [pure, Except.pure]

theorem cast_vote_checks_plan (pid oi : ℕ) (w : Option ℕ) (ed zk non : Option (List ℕ))
    (accs : List Account) (now : ℕ) (plan : CastPlan) (reg0 : VoterRegistry)
    (hreg : decode_voter_registry (accs.getD 4 dummyAccount).data = some reg0)
    (h : cast_vote_checks pid oi w ed zk non accs now = .ok plan) :
    plan.voter_registry = cast_registry_step reg0 (accs.getD 0 dummyAccount).key ∧
    plan.voter_index = find_voter_index reg0 (accs.getD 0 dummyAccount).key ∧
    plan.vote.voter = (accs.getD 0 dummyAccount).key ∧
    5 ≤ accs.length := by
  simp only [cast_vote_checks, bind_ok_iff, ensureE_ok_iff, okOr_ok_iff, pure_ok_iff] at h
  obtain ⟨_, hlen, _, hsig, _, hwrit, poll, hpoll, _, hid, _, hact, _, hst, _, het, _, hoi,
    reg1, hreg1, _, hrev, eff, heff, _, hzk, _, henc, _, hnon, vw, hvw, hplan⟩ := h
  rw [hreg] at hreg1
  injection hreg1 with hreg1
  subst hreg1
  subst hplan
  refine ⟨?_, rfl, rfl, by omega⟩
  simp [cast_registry_step]

theorem cast_vote_core_registry (pid oi : ℕ) (w : Option ℕ) (ed zk non : Option (List ℕ))
    (accs : List Account) (now : ℕ) (st : List Account) (reg0 : VoterRegistry)
    (hreg : decode_voter_registry (accs.getD 4 dummyAccount).data = some reg0)
    (hcore : cast_vote_core pid oi w ed zk non accs now = .ok st) :
    decode_voter_registry (st.getD 4 dummyAccount).data =
      some (cast_registry_step reg0 (accs.getD 0 dummyAccount).key) := by
  unfold cast_vote_core at hcore
  cases hchk : cast_vote_checks pid oi w ed zk non accs now with
  | error e =>
    rw [hchk] at hcore
    exact Except.noConfusion hcore
  | ok plan =>
    obtain ⟨hregeq, hvidx, hvv, hlen⟩ :=
      cast_vote_checks_plan pid oi w ed zk non accs now plan reg0 hreg hchk
    rw [hchk] at hcore
    simp only [] at hcore
    split at hcore
    next e hupd => exact Except.noConfusion hcore
    next vca hupd =>
      injection hcore with hst
      subst hst
      have h4 : (4 : ℕ) < ((accs.set 1 { accs.getD 1 dummyAccount with
          data := .voteD plan.vote }).set 3 vca).length := by
        simp [List.length_set]; omega
      rw [List.getD_eq_getElem?_getD, List.getElem?_set_eq_of_lt _ h4]
      simp [decode_voter_registry, hregeq]

/-- C3: the Voter Registry never holds a duplicate voter, and the bitmap
is only an optimization over the authoritative list.  Over any sequence
of CastVote registry updates (`cast_registry_step`: a registered voter
leaves the registry unchanged, an unregistered one is added) starting
from the registry CreatePoll writes: the voters list stays duplicate
free and every listed voter has their bitmap bit set; membership as
decided by `find_voter_index` (clear bit — absent without scanning; set
bit — linear scan of the list, so hash collisions are disambiguated)
coincides exactly with list membership; a clear bit implies absence; and
every successful `cast_vote_core` persists exactly
`cast_registry_step` of the registry it decoded. -/
theorem c3_registry_nodup_and_bitmap_soundness :
    (∀ (pid : ℕ) (vs : List Pubkey),
      (vs.foldl cast_registry_step (initial_registry pid)).voters.Nodup ∧
      RegInv (vs.foldl cast_registry_step (initial_registry pid))) ∧
    (∀ (pid : ℕ) (vs : List Pubkey) (v : Pubkey),
      (find_voter_index (vs.foldl cast_registry_step (initial_registry pid)) v).isSome = true ↔
        v ∈ (vs.foldl cast_registry_step (initial_registry pid)).voters) ∧
    (∀ (r : VoterRegistry) (v : Pubkey), RegInv r → ¬voter_slot_set r v → v ∉ r.voters) ∧
    (∀ (pid oi : ℕ) (w : Option ℕ) (ed zk non : Option (List ℕ)) (accs : List Account)
      (now : ℕ) (st : List Account) (reg0 : VoterRegistry),
      decode_voter_registry (accs.getD 4 dummyAccount).data = some reg0 →
      cast_vote_core pid oi w ed zk non accs now = .ok st →
      decode_voter_registry (st.getD 4 dummyAccount).data =
        some (cast_registry_step reg0 (accs.getD 0 dummyAccount).key)) := by
  have hinit : ∀ pid : ℕ, RegInv (initial_registry pid) ∧ (initial_registry pid).voters.Nodup :=
    fun pid => ⟨fun v hv => absurd hv (List.not_mem_nil v), List.nodup_nil⟩
  refine ⟨?_, ?_, ?_, ?_⟩
  · intro pid vs
    have h := fold_registry_inv vs (initial_registry pid) (hinit pid).1 (hinit pid).2
    exact ⟨h.2, h.1⟩
  · intro pid vs v
    have h := fold_registry_inv vs (initial_registry pid) (hinit pid).1 (hinit pid).2
    exact find_voter_index_isSome_iff _ v h.1
  · exact fun r v hinv hclear => clear_bit_not_mem r v hinv hclear
  · exact fun pid oi w ed zk non accs now st reg0 hreg hcore =>
      cast_vote_core_registry pid oi w ed zk non accs now st reg0 hreg hcore

set_option maxRecDepth 80000 in
/-- C3, witness: the concrete Scenario B first cast updates the registry
by exactly one `cast_registry_step` of the initial registry. -/
theorem c3_registry_nodup_and_bitmap_soundness_witness :
    decode_voter_registry
        ((((cast_vote_core 1 1 none none none none accB 150).toOption.getD []).getD 4
          dummyAccount).data) =
      some (cast_registry_step (initial_registry 1) [7]) :=
  c3_registry_nodup_and_bitmap_soundness.2.2.2 1 1 none none none none accB 150
    ((cast_vote_core 1 1 none none none none accB 150).toOption.getD []) (initial_registry 1)
    (by decide) (by decide)

/-! ### Tally-update lemmas (C4, C10) -/

theorem update_vote_count_spec (acc : Account) (oi wgt : ℕ) (is_revote : Bool)
    (prev : Option ℕ) (now : ℕ) (vc0 : VoteCount)
    (hvc : decode_vote_count acc.data = some vc0) :
    ∃ vc1, update_vote_count acc oi wgt is_revote prev now =
        .ok { acc with data := .vcD vc1 } ∧
      vc1.total_voters = (if is_revote then vc0.total_voters
        else satAdd64 vc0.total_voters 1) ∧
      vc1.counts.length = vc0.counts.length := by
  unfold update_vote_count
  rw [hvc]
  refine ⟨_, rfl, ?_, ?_⟩ <;>
    cases is_revote <;> cases prev <;> (try simp only []) <;>
      (repeat' split) <;> simp [List.length_set]

theorem update_vote_count_change_spec (acc : Account) (oi ni wgt now : ℕ) (vc0 : VoteCount)
    (hvc : decode_vote_count acc.data = some vc0) :
    ∃ vc1, update_vote_count_change acc oi ni wgt now =
        .ok { acc with data := .vcD vc1 } ∧
      vc1.total_voters = vc0.total_voters ∧
      vc1.counts.length = vc0.counts.length := by
  unfold update_vote_count_change
  rw [hvc]
  refine ⟨_, rfl, ?_, ?_⟩ <;> (try simp only []) <;>
    (repeat' split) <;> simp [List.length_set]

theorem getD_set_ne_acc (l : List Account) (i j : ℕ) (h : i ≠ j) (x : Account) :
    (l.set i x).getD j dummyAccount = l.getD j dummyAccount := by
  rw [List.getD_eq_getElem?_getD, List.getElem?_set_ne h, ← List.getD_eq_getElem?_getD]

theorem getD_set_self_acc (l : List Account) (i : ℕ) (h : i < l.length) (x : Account) :
    (l.set i x).getD i dummyAccount = x := by
  rw [List.getD_eq_getElem?_getD, List.getElem?_set_eq_of_lt _ h, Option.getD_some]

theorem cast_vote_core_total (pid oi : ℕ) (w : Option ℕ) (ed zk non : Option (List ℕ))
    (accs : List Account) (now : ℕ) (st : List Account) (vc0 : VoteCount)
    (reg0 : VoterRegistry)
    (hvc : decode_vote_count (accs.getD 3 dummyAccount).data = some vc0)
    (hreg : decode_voter_registry (accs.getD 4 dummyAccount).data = some reg0)
    (hcore : cast_vote_core pid oi w ed zk non accs now = .ok st) :
    ∃ vc1, decode_vote_count (st.getD 3 dummyAccount).data = some vc1 ∧
      vc1.total_voters =
        (if (find_voter_index reg0 (accs.getD 0 dummyAccount).key).isSome then vc0.total_voters
         else satAdd64 vc0.total_voters 1) ∧
      vc1.counts.length = vc0.counts.length := by
  unfold cast_vote_core at hcore
  cases hchk : cast_vote_checks pid oi w ed zk non accs now with
  | error e =>
    rw [hchk] at hcore
    exact Except.noConfusion hcore
  | ok plan =>
    obtain ⟨hregeq, hvidx, hvv, hlen⟩ :=
      cast_vote_checks_plan pid oi w ed zk non accs now plan reg0 hreg hchk
    rw [hchk] at hcore
    simp only [] at hcore
    rw [getD_set_ne_acc accs 1 3 (by decide)] at hcore
    obtain ⟨vc1, hspec, htot, hlencnt⟩ :=
      update_vote_count_spec (accs.getD 3 dummyAccount) oi plan.vote.weight
        plan.voter_index.isSome
        (plan.voter_index.map fun _ =>
          (get_previous_vote ((accs.set 1 { accs.getD 1 dummyAccount with
            data := .voteD plan.vote }).getD 1 dummyAccount) pid
            (accs.getD 0 dummyAccount).key).getD 0)
        now vc0 hvc
    rw [hspec] at hcore
    injection hcore with hst
    subst hst
    refine ⟨vc1, ?_, ?_, hlencnt⟩
    · rw [getD_set_ne_acc _ 4 3 (by decide),
        getD_set_self_acc _ 3 (by simp [List.length_set]; omega)]
      rfl
    · rw [htot, hvidx]

theorem change_vote_checks_len (pid ni : ℕ) (ed zk non : Option (List ℕ))
    (accs : List Account) (now : ℕ) (plan : ChangePlan)
    (h : change_vote_checks pid ni ed zk non accs now = .ok plan) : 4 ≤ accs.length := by
  simp only [change_vote_checks, bind_ok_iff, ensureE_ok_iff, okOr_ok_iff, pure_ok_iff] at h
  obtain ⟨_, hlen, _⟩ := h
  omega

theorem change_vote_core_total (pid ni : ℕ) (ed zk non : Option (List ℕ))
    (accs : List Account) (now : ℕ) (st : List Account) (vc0 : VoteCount)
    (hvc : decode_vote_count (accs.getD 3 dummyAccount).data = some vc0)
    (hcore : change_vote_core pid ni ed zk non accs now = .ok st) :
    ∃ vc1, decode_vote_count (st.getD 3 dummyAccount).data = some vc1 ∧
      vc1.total_voters = vc0.total_voters ∧
      vc1.counts.length = vc0.counts.length := by
  unfold change_vote_core at hcore
  cases hchk : change_vote_checks pid ni ed zk non accs now with
  | error e =>
    rw [hchk] at hcore
    exact Except.noConfusion hcore
  | ok plan =>
    have hlen := change_vote_checks_len pid ni ed zk non accs now plan hchk
    rw [hchk] at hcore
    simp only [] at hcore
    rw [getD_set_ne_acc accs 1 3 (by decide)] at hcore
    obtain ⟨vc1, hspec, htot, hlencnt⟩ :=
      update_vote_count_change_spec (accs.getD 3 dummyAccount) plan.vote0.option_index ni
        plan.vote.weight now vc0 hvc
    rw [hspec] at hcore
    injection hcore with hst
    subst hst
    refine ⟨vc1, ?_, htot, hlencnt⟩
    rw [getD_set_self_acc _ 3 (by simp [List.length_set]; omega)]
    rfl

theorem satAdd64_of_lt (t : ℕ) (h : t < U64MAX) : satAdd64 t 1 = t + 1 := by
  have h2 : U64MAX = 18446744073709551615 := by norm_num [U64MAX]
  rw [h2] at h
  rw [satAdd64, h2]
  omega

/-- C4: `total_voters` moves by exactly 1 on a first-time CastVote (the
voter is not yet in the registry) and by exactly 0 on a revote CastVote
or on any ChangeVote.  Stated both on the tally helpers
(`update_vote_count` increments only when `is_revote = false`;
`update_vote_count_change` never touches `total_voters`) and on the full
handlers (`cast_vote_core`, `change_vote_core`), with the increment
written as `+ 1` under the no-overflow bound `total_voters < U64MAX`
(the u64 `saturating_add` of the source). -/
theorem c4_total_voters_delta :
    (∀ (acc : Account) (oi wgt : ℕ) (prev : Option ℕ) (now : ℕ) (vc0 : VoteCount),
      decode_vote_count acc.data = some vc0 →
      vc0.total_voters < U64MAX →
      ∃ vc1, update_vote_count acc oi wgt false prev now = .ok { acc with data := .vcD vc1 } ∧
        vc1.total_voters = vc0.total_voters + 1) ∧
    (∀ (acc : Account) (oi wgt : ℕ) (prev : Option ℕ) (now : ℕ) (vc0 : VoteCount),
      decode_vote_count acc.data = some vc0 →
      ∃ vc1, update_vote_count acc oi wgt true prev now = .ok { acc with data := .vcD vc1 } ∧
        vc1.total_voters = vc0.total_voters) ∧
    (∀ (acc : Account) (oi ni wgt now : ℕ) (vc0 : VoteCount),
      decode_vote_count acc.data = some vc0 →
      ∃ vc1, update_vote_count_change acc oi ni wgt now = .ok { acc with data := .vcD vc1 } ∧
        vc1.total_voters = vc0.total_voters) ∧
    (∀ (pid oi : ℕ) (w : Option ℕ) (ed zk non : Option (List ℕ)) (accs : List Account)
      (now : ℕ) (st : List Account) (vc0 : VoteCount) (reg0 : VoterRegistry),
      decode_vote_count (accs.getD 3 dummyAccount).data = some vc0 →
      decode_voter_registry (accs.getD 4 dummyAccount).data = some reg0 →
      cast_vote_core pid oi w ed zk non accs now = .ok st →
      (find_voter_index reg0 (accs.getD 0 dummyAccount).key = none →
        vc0.total_voters < U64MAX →
        ∃ vc1, decode_vote_count (st.getD 3 dummyAccount).data = some vc1 ∧
          vc1.total_voters = vc0.total_voters + 1) ∧
      ((find_voter_index reg0 (accs.getD 0 dummyAccount).key).isSome = true →
        ∃ vc1, decode_vote_count (st.getD 3 dummyAccount).data = some vc1 ∧
          vc1.total_voters = vc0.total_voters)) ∧
    (∀ (pid ni : ℕ) (ed zk non : Option (List ℕ)) (accs : List Account) (now : ℕ)
      (st : List Account) (vc0 : VoteCount),
      decode_vote_count (accs.getD 3 dummyAccount).data = some vc0 →
      change_vote_core pid ni ed zk non accs now = .ok st →
      ∃ vc1, decode_vote_count (st.getD 3 dummyAccount).data = some vc1 ∧
        vc1.total_voters = vc0.total_voters) := by
  refine ⟨?_, ?_, ?_, ?_, ?_⟩
  · intro acc oi wgt prev now vc0 hvc hlt
    obtain ⟨vc1, hspec, htot, _⟩ := update_vote_count_spec acc oi wgt false prev now vc0 hvc
    exact ⟨vc1, hspec, by simpa [satAdd64_of_lt vc0.total_voters hlt] using htot⟩
  · intro acc oi wgt prev now vc0 hvc
    obtain ⟨vc1, hspec, htot, _⟩ := update_vote_count_spec acc oi wgt true prev now vc0 hvc
    exact ⟨vc1, hspec, by simpa using htot⟩
  · intro acc oi ni wgt now vc0 hvc
    obtain ⟨vc1, hspec, htot, _⟩ := update_vote_count_change_spec acc oi ni wgt now vc0 hvc
    exact ⟨vc1, hspec, htot⟩
  · intro pid oi w ed zk non accs now st vc0 reg0 hvc hreg hcore
    obtain ⟨vc1, hdec, htot, _⟩ :=
      cast_vote_core_total pid oi w ed zk non accs now st vc0 reg0 hvc hreg hcore
    constructor
    · intro hnone hlt
      rw [hnone] at htot
      exact ⟨vc1, hdec, by simpa [satAdd64_of_lt vc0.total_voters hlt] using htot⟩
    · intro hsome
      rw [hsome] at htot
      exact ⟨vc1, hdec, by simpa using htot⟩
  · intro pid ni ed zk non accs now st vc0 hvc hcore
    obtain ⟨vc1, hdec, htot, _⟩ :=
      change_vote_core_total pid ni ed zk non accs now st vc0 hvc hcore
    exact ⟨vc1, hdec, htot⟩

set_option maxRecDepth 80000 in
/-- C4, witness: on the concrete Scenario B first cast (fresh voter,
`total_voters` 0), the handler-level part of the theorem yields a
post-call vote count with `total_voters` 1. -/
theorem c4_total_voters_delta_witness :
    ∃ vc1, decode_vote_count
        ((((cast_vote_core 1 1 none none none none accB 150).toOption.getD []).getD 3
          dummyAccount).data) = some vc1 ∧
      vc1.total_voters = 0 + 1 :=
  (c4_total_voters_delta.2.2.2.1 1 1 none none none none accB 150
    ((cast_vote_core 1 1 none none none none accB 150).toOption.getD [])
    ⟨1, [0, 0, 0], 0, 0, false⟩ (initial_registry 1)
    (by decide) (by decide) (by decide)).1 (by decide) (by decide)

/-! ### Closed forms of the tally helpers (C10) -/

theorem update_vote_count_eq (acc : Account) (oi wgt : ℕ) (rv : Bool) (prev : Option ℕ)
    (now : ℕ) (vc0 : VoteCount) (hvc : decode_vote_count acc.data = some vc0) :
    update_vote_count acc oi wgt rv prev now =
    .ok { acc with
          data := .vcD (VoteCount.mk vc0.poll_id
            (inc_at (if rv then
                (match prev with
                 | some p => dec_at vc0.counts p wgt
                 | none => vc0.counts)
              else vc0.counts) oi wgt)
            (if rv then vc0.total_voters else satAdd64 vc0.total_voters 1)
            now vc0.is_finalized) } := by
  unfold update_vote_count
  rw [hvc]
  cases rv <;> cases prev <;>
    simp only [dec_at, inc_at] <;>
    (repeat' split) <;>
    simp_all [List.length_set]

theorem update_vote_count_change_eq (acc : Account) (oi ni wgt now : ℕ) (vc0 : VoteCount)
    (hvc : decode_vote_count acc.data = some vc0) :
    update_vote_count_change acc oi ni wgt now =
    .ok { acc with
          data := .vcD (VoteCount.mk vc0.poll_id
            (inc_at (dec_at vc0.counts oi wgt) ni wgt)
            vc0.total_voters now vc0.is_finalized) } := by
  unfold update_vote_count_change
  rw [hvc]
  simp only [dec_at, inc_at]
  (repeat' split) <;> simp_all [List.length_set]

theorem dec_at_props (l : List ℕ) (i w : ℕ) :
    (dec_at l i w).length = l.length ∧
    (l.length ≤ i → dec_at l i w = l) ∧
    ((∀ x ∈ l, x ≤ U64MAX) → ∀ x ∈ dec_at l i w, x ≤ U64MAX) := by
  unfold dec_at
  split
  next h =>
    refine ⟨List.length_set l i _, fun hle => absurd h (by omega), fun hb x hx => ?_⟩
    rcases List.mem_or_eq_of_mem_set hx with hmem | heq
    · exact hb x hmem
    · subst heq
      refine le_trans (Nat.sub_le _ _) (hb _ ?_)
      rw [List.getD_eq_getElem l 0 h]
      exact l.getElem_mem h
  next h =>
    exact ⟨rfl, fun _ => rfl, fun hb => hb⟩

theorem inc_at_props (l : List ℕ) (i w : ℕ) :
    (inc_at l i w).length = l.length ∧
    (l.length ≤ i → inc_at l i w = l) ∧
    (∀ x ∈ inc_at l i w, x ∈ l ∨ x ≤ U64MAX) := by
  unfold inc_at
  split
  next h =>
    refine ⟨List.length_set l i _, fun hle => absurd h (by omega), fun x hx => ?_⟩
    rcases List.mem_or_eq_of_mem_set hx with hmem | heq
    · exact Or.inl hmem
    · subst heq
      exact Or.inr (Nat.min_le_right _ _)
  next h =>
    exact ⟨rfl, fun _ => rfl, fun x hx => Or.inl hx⟩

/-- C10: the tally helpers are total and never underflow, overflow or
index out of bounds.  Whenever the vote-count account decodes,
`update_vote_count` and `update_vote_count_change` return `.ok` with the
counts transformed by the guarded saturating steps `dec_at`/`inc_at`
(closed forms); those steps preserve the list length, skip out-of-range
indices entirely, clamp decrements at 0 (`satSub64`) and cap increments
at the u64 maximum (`satAdd64`), so every entry stays a valid u64. -/
theorem c10_tally_total_and_saturating :
    (∀ (acc : Account) (oi wgt : ℕ) (rv : Bool) (prev : Option ℕ) (now : ℕ) (vc0 : VoteCount),
      decode_vote_count acc.data = some vc0 →
      update_vote_count acc oi wgt rv prev now =
      .ok { acc with
            data := .vcD (VoteCount.mk vc0.poll_id
              (inc_at (if rv then
                  (match prev with
                   | some p => dec_at vc0.counts p wgt
                   | none => vc0.counts)
                else vc0.counts) oi wgt)
              (if rv then vc0.total_voters else satAdd64 vc0.total_voters 1)
              now vc0.is_finalized) }) ∧
    (∀ (acc : Account) (oi ni wgt now : ℕ) (vc0 : VoteCount),
      decode_vote_count acc.data = some vc0 →
      update_vote_count_change acc oi ni wgt now =
      .ok { acc with
            data := .vcD (VoteCount.mk vc0.poll_id
              (inc_at (dec_at vc0.counts oi wgt) ni wgt)
              vc0.total_voters now vc0.is_finalized) }) ∧
    (∀ (l : List ℕ) (i w : ℕ),
      (dec_at l i w).length = l.length ∧
      (l.length ≤ i → dec_at l i w = l) ∧
      ((∀ x ∈ l, x ≤ U64MAX) → ∀ x ∈ dec_at l i w, x ≤ U64MAX)) ∧
    (∀ (l : List ℕ) (i w : ℕ),
      (inc_at l i w).length = l.length ∧
      (l.length ≤ i → inc_at l i w = l) ∧
      (∀ x ∈ inc_at l i w, x ∈ l ∨ x ≤ U64MAX)) :=
  ⟨update_vote_count_eq, update_vote_count_change_eq, dec_at_props, inc_at_props⟩

/-- C10, witness: the closed form evaluated on a concrete first-time vote
(option 1, weight 1, fresh three-option tally). -/
theorem c10_tally_total_and_saturating_witness :
    update_vote_count ⟨[4], false, true, .vcD ⟨1, [0, 0, 0], 0, 0, false⟩⟩ 1 1 false none 150 =
    .ok { (⟨[4], false, true, .vcD ⟨1, [0, 0, 0], 0, 0, false⟩⟩ : Account) with
          data := .vcD (VoteCount.mk 1
            (inc_at (if false then
                (match (none : Option ℕ) with
                 | some p => dec_at [0, 0, 0] p 1
                 | none => [0, 0, 0])
              else [0, 0, 0]) 1 1)
            (if false then 0 else satAdd64 0 1)
            150 false) } :=
  c10_tally_total_and_saturating.1 ⟨[4], false, true, .vcD ⟨1, [0, 0, 0], 0, 0, false⟩⟩
    1 1 false none 150 ⟨1, [0, 0, 0], 0, 0, false⟩ (by decide)

/-! ### Finalize-idempotence lemmas (C6) -/

theorem decrypt_checks_not_finalized (pid : ℕ) (key : List ℕ) (accs : List Account)
    (now : ℕ) (plan : DecryptPlan) (vc : VoteCount)
    (hvc : decode_vote_count (accs.getD 2 dummyAccount).data = some vc)
    (h : decrypt_results_checks pid key accs now = .ok plan) :
    vc.is_finalized = false := by
  simp only [decrypt_results_checks, bind_ok_iff, ensureE_ok_iff, okOr_ok_iff,
    pure_ok_iff] at h
  obtain ⟨_, hlen, _, hsig, _, hwrit, _, hva, poll, hpoll, _, hid, _, henc, _, hcr,
    _, hcl, vc1, hvc1, _, hvpid, _, hfin, hplan⟩ := h
  rw [hvc] at hvc1
  injection hvc1 with hvc1
  subst hvc1
  exact hfin

theorem close_checks_active (pid : ℕ) (accs : List Account) (now : ℕ) (plan : ClosePlan)
    (poll : Poll) (hpoll : decode_poll (accs.getD 1 dummyAccount).data = some poll)
    (h : close_poll_checks pid accs now = .ok plan) :
    poll.is_active = true ∧ 3 ≤ accs.length ∧ plan.poll = poll := by
  simp only [close_poll_checks, bind_ok_iff, ensureE_ok_iff, okOr_ok_iff, pure_ok_iff] at h
  obtain ⟨_, hlen, _, hsig, _, hwrit, poll1, hpoll1, _, hid, _, hact, _, hauth, hrest⟩ := h
  rw [hpoll] at hpoll1
  injection hpoll1 with hpoll1
  subst hpoll1
  refine ⟨hact, by omega, ?_⟩
  split at hrest
  · injection hrest with hp
    subst hp
    rfl
  · simp only [bind_ok_iff, okOr_ok_iff, pure_ok_iff] at hrest
    obtain ⟨vc, hvc, hplan⟩ := hrest
    subst hplan
    rfl

theorem close_checks_len (pid : ℕ) (accs : List Account) (now : ℕ) (plan : ClosePlan)
    (h : close_poll_checks pid accs now = .ok plan) : 3 ≤ accs.length := by
  simp only [close_poll_checks, bind_ok_iff, ensureE_ok_iff, okOr_ok_iff, pure_ok_iff] at h
  obtain ⟨_, hlen, _⟩ := h
  omega

theorem decrypt_checks_plan (pid : ℕ) (key : List ℕ) (accs : List Account) (now : ℕ)
    (plan : DecryptPlan) (h : decrypt_results_checks pid key accs now = .ok plan) :
    3 ≤ accs.length ∧ plan.poll2.is_active = false := by
  simp only [decrypt_results_checks, bind_ok_iff, ensureE_ok_iff, okOr_ok_iff,
    pure_ok_iff] at h
  obtain ⟨_, hlen, _, hsig, _, hwrit, _, hva, poll, hpoll, _, hid, _, henc, _, hcr,
    _, hcl, vc1, hvc1, _, hvpid, _, hfin, hplan⟩ := h
  subst hplan
  refine ⟨by omega, ?_⟩
  by_cases hact : poll.is_active = true <;> simp [hact]

theorem close_core_deactivates (pid : ℕ) (accs : List Account) (now : ℕ)
    (st : List Account) (hcore : close_poll_core pid accs now = .ok st) :
    ∃ p1, decode_poll (st.getD 1 dummyAccount).data = some p1 ∧ p1.is_active = false := by
  unfold close_poll_core at hcore
  cases hchk : close_poll_checks pid accs now with
  | error e =>
    rw [hchk] at hcore
    exact Except.noConfusion hcore
  | ok plan =>
    have hlen := close_checks_len pid accs now plan hchk
    rw [hchk] at hcore
    simp only [] at hcore
    injection hcore with hst
    subst hst
    refine ⟨{ plan.poll with is_active := false }, ?_, rfl⟩
    cases hpv : plan.vc <;>
      rw [hpv] at * <;>
      rw [getD_set_self_acc _ 1 (by simp [List.length_set]; omega)] <;>
      rfl

theorem decrypt_core_deactivates (pid : ℕ) (key : List ℕ) (accs : List Account) (now : ℕ)
    (st : List Account) (hcore : decrypt_results_core pid key accs now = .ok st) :
    ∃ p1, decode_poll (st.getD 1 dummyAccount).data = some p1 ∧ p1.is_active = false := by
  unfold decrypt_results_core at hcore
  cases hchk : decrypt_results_checks pid key accs now with
  | error e =>
    rw [hchk] at hcore
    exact Except.noConfusion hcore
  | ok plan =>
    obtain ⟨hlen, hact⟩ := decrypt_checks_plan pid key accs now plan hchk
    rw [hchk] at hcore
    simp only [] at hcore
    injection hcore with hst
    subst hst
    refine ⟨plan.poll2, ?_, hact⟩
    rw [getD_set_ne_acc _ 2 1 (by decide), getD_set_self_acc _ 1 (by omega)]
    rfl

/-- C6: Close/Decrypt on an already-finalized VoteCount is rejected and
leaves every account, counts included, unchanged.  DecryptResults checks
`is_finalized` explicitly before any write, so any call on a finalized
vote count returns an error with the account state untouched.  ClosePoll
rejects with `PollNotActive` because a finalized vote count only ever
coexists with a deactivated poll: the last two conjuncts show every
successful Close/Decrypt leaves the poll deactivated (and both
finalizers run under `poll.is_active = true`), so in any reachable state
a finalized count has an inactive poll, and the call is rejected before
any write. -/
theorem c6_finalized_is_frozen :
    (∀ (pid : ℕ) (key : List ℕ) (accs : List Account) (now : ℕ) (vc : VoteCount),
      decode_vote_count (accs.getD 2 dummyAccount).data = some vc →
      vc.is_finalized = true →
      ∃ e, decrypt_results_core pid key accs now = .error (e, accs) ∧
        ∀ fee, process_decrypt_results pid key fee accs now = (.error e, accs)) ∧
    (∀ (pid : ℕ) (accs : List Account) (now : ℕ) (poll : Poll),
      decode_poll (accs.getD 1 dummyAccount).data = some poll →
      poll.is_active = false →
      ∃ e, close_poll_core pid accs now = .error (e, accs) ∧
        ∀ fee, process_close_poll pid fee accs now = (.error e, accs)) ∧
    (∀ (pid : ℕ) (accs : List Account) (now : ℕ) (st : List Account),
      close_poll_core pid accs now = .ok st →
      ∃ p1, decode_poll (st.getD 1 dummyAccount).data = some p1 ∧ p1.is_active = false) ∧
    (∀ (pid : ℕ) (key : List ℕ) (accs : List Account) (now : ℕ) (st : List Account),
      decrypt_results_core pid key accs now = .ok st →
      ∃ p1, decode_poll (st.getD 1 dummyAccount).data = some p1 ∧ p1.is_active = false) := by
  refine ⟨?_, ?_, close_core_deactivates, decrypt_core_deactivates⟩
  · intro pid key accs now vc hvc hfin
    cases hchk : decrypt_results_checks pid key accs now with
    | error e =>
      refine ⟨e, ?_, ?_⟩
      · unfold decrypt_results_core
        rw [hchk]
      · intro fee
        unfold process_decrypt_results decrypt_results_core
        rw [hchk]
        rfl
    | ok plan =>
      have := decrypt_checks_not_finalized pid key accs now plan vc hvc hchk
      rw [hfin] at this
      exact Bool.noConfusion this
  · intro pid accs now poll hpoll hinact
    cases hchk : close_poll_checks pid accs now with
    | error e =>
      refine ⟨e, ?_, ?_⟩
      · unfold close_poll_core
        rw [hchk]
      · intro fee
        unfold process_close_poll close_poll_core
        rw [hchk]
        rfl
    | ok plan =>
      have := (close_checks_active pid accs now plan poll hpoll hchk).1
      rw [hinact] at this
      exact Bool.noConfusion this

/-- C6, witness: on the concrete closed encrypted poll `pollE` with its
finalized vote count, DecryptResults is rejected (the error is
`ResultsAlreadyFinalized`) and ClosePoll is rejected (`PollNotActive`),
both leaving the accounts exactly as they were. -/
theorem c6_finalized_is_frozen_witness :
    (∃ e, decrypt_results_core 1 [1, 2] accE 300 = .error (e, accE) ∧
      ∀ fee, process_decrypt_results 1 [1, 2] fee accE 300 = (.error e, accE)) ∧
    (∃ e, close_poll_core 1 accE 300 = .error (e, accE) ∧
      ∀ fee, process_close_poll 1 fee accE 300 = (.error e, accE)) :=
  ⟨c6_finalized_is_frozen.1 1 [1, 2] accE 300 ⟨1, [4, 2], 6, 150, true⟩ (by decide) (by decide),
   c6_finalized_is_frozen.2.1 1 accE 300 pollE (by decide) (by decide)⟩

/-! ### ClosePoll semantics (C9) -/

/-- C9: on a well-shaped call (3 accounts, signing caller, writable poll
and vote count, decodable poll with matching id), ClosePoll (i) rejects
an inactive poll with `PollNotActive`; (ii) rejects a call at or before
`end_time` by a non-creator with `NotPollCreator`, with no state change
in either case; (iii) succeeds for the creator at any time and for any
caller strictly after `end_time`: with a well-formed fee it returns
`ok`, deactivates the poll, and — when the poll is not encrypted — also
writes the vote count with `is_finalized = true` (counts untouched),
while (iv) for an encrypted poll the vote count account is not written
at all (finalization is deferred to DecryptResults). -/
theorem c9_close_poll_semantics (pid : ℕ) (accs : List Account) (now : ℕ) (poll : Poll)
    (hlen : 3 ≤ accs.length)
    (hsig : (accs.getD 0 dummyAccount).is_signer = true)
    (hw1 : (accs.getD 1 dummyAccount).is_writable = true)
    (hw2 : (accs.getD 2 dummyAccount).is_writable = true)
    (hpoll : decode_poll (accs.getD 1 dummyAccount).data = some poll)
    (hid : poll.id = pid) :
    (poll.is_active = false → close_poll_core pid accs now = .error (.pollNotActive, accs)) ∧
    (poll.is_active = true → now ≤ poll.end_time →
      poll.creator ≠ (accs.getD 0 dummyAccount).key →
      close_poll_core pid accs now = .error (.notPollCreator, accs)) ∧
    (poll.is_active = true →
      (poll.end_time < now ∨ poll.creator = (accs.getD 0 dummyAccount).key) →
      poll.is_encrypted = false →
      ∀ vc, decode_vote_count (accs.getD 2 dummyAccount).data = some vc →
      ∀ n, process_close_poll pid (.decoded (n + 1)) accs now =
        (.ok (), (accs.set 2 { accs.getD 2 dummyAccount with
            data := .vcD { vc with is_finalized := true, last_updated := now } }).set 1
          { accs.getD 1 dummyAccount with data := .pollD { poll with is_active := false } })) ∧
    (poll.is_active = true →
      (poll.end_time < now ∨ poll.creator = (accs.getD 0 dummyAccount).key) →
      poll.is_encrypted = true →
      ∀ n, process_close_poll pid (.decoded (n + 1)) accs now =
        (.ok (), accs.set 1 { accs.getD 1 dummyAccount with
          data := .pollD { poll with is_active := false } })) := by
  refine ⟨?_, ?_, ?_, ?_⟩
  · intro hinact
    have hchk : close_poll_checks pid accs now = .error .pollNotActive := by
      unfold close_poll_checks
      simp_all [ensureE, okOr, Bind.bind, Except.bind, show ¬accs.length < 3 by omega]
    unfold close_poll_core
    rw [hchk]
  · intro hact hle hne
    have hchk : close_poll_checks pid accs now = .error .notPollCreator := by
      unfold close_poll_checks
      simp_all [ensureE, okOr, Bind.bind, Except.bind, show ¬accs.length < 3 by omega]
    unfold close_poll_core
    rw [hchk]
  · intro hact hauth henc vc hvc n
    have hcond : now ≤ poll.end_time → poll.creator = (accs.getD 0 dummyAccount).key := by
      rcases hauth with h | h
      · intro hle
        omega
      · exact fun _ => h
    have hchk : close_poll_checks pid accs now = .ok ⟨poll, some vc⟩ := by
      unfold close_poll_checks
      simp_all [ensureE, okOr, Bind.bind, Except.bind, pure, Except.pure,
        show ¬accs.length < 3 by omega]
    unfold process_close_poll close_poll_core
    rw [hchk]
    rfl
  · intro hact hauth henc n
    have hcond : now ≤ poll.end_time → poll.creator = (accs.getD 0 dummyAccount).key := by
      rcases hauth with h | h
      · intro hle
        omega
      · exact fun _ => h
    have hchk : close_poll_checks pid accs now = .ok ⟨poll, none⟩ := by
      unfold close_poll_checks
      simp_all [ensureE, okOr, Bind.bind, Except.bind, pure, Except.pure,
        show ¬accs.length < 3 by omega]
    unfold process_close_poll close_poll_core
    rw [hchk]
    rfl

/-- C9, witness: the creator closes the concrete active, non-encrypted
poll `pollCl` at `now = 150 ≤ end_time`; the call succeeds, the poll is
deactivated and the vote count is finalized with its counts unchanged. -/
theorem c9_close_poll_semantics_witness :
    process_close_poll 1 (.decoded 1) accCl 150 =
    (.ok (), (accCl.set 2 { accCl.getD 2 dummyAccount with
        data := .vcD (VoteCount.mk 1 [5, 10, 3] 18 150 true) }).set 1
      { accCl.getD 1 dummyAccount with
        data := .pollD { pollCl with is_active := false } }) :=
  (c9_close_poll_semantics 1 accCl 150 pollCl (by decide) (by decide) (by decide)
    (by decide) (by decide) (by decide)).2.2.1 (by decide) (Or.inr (by decide)) (by decide)
    ⟨1, [5, 10, 3], 18, 0, false⟩ (by decide) 0

/-! ### Delegation lemmas (C7) -/

theorem resolve_delegation_ok_delegate (poll : Poll) (dacc : Account) (v : Pubkey)
    (pid now : ℕ) (d : Delegation) (eff : Pubkey)
    (hd : decode_delegation dacc.data = some d)
    (h : resolve_delegation poll (some dacc) v pid now = .ok eff) :
    eff = d.delegate := by
  unfold resolve_delegation at h
  simp only [hd] at h
  repeat' split at h
  all_goals first
    | exact Except.noConfusion h
    | (injection h with h1; exact h1.symm)

theorem cast_vote_checks_delegated_to (pid oi : ℕ) (w : Option ℕ)
    (ed zk non : Option (List ℕ)) (accs : List Account) (now : ℕ) (plan : CastPlan)
    (d : Delegation) (hpres : 5 < accs.length)
    (hd : decode_delegation (accs.getD 5 dummyAccount).data = some d)
    (h : cast_vote_checks pid oi w ed zk non accs now = .ok plan) :
    plan.vote.delegated_to = some d.delegate := by
  simp only [cast_vote_checks, bind_ok_iff, ensureE_ok_iff, okOr_ok_iff, pure_ok_iff] at h
  obtain ⟨_, hlen, _, hsig, _, hwrit, poll, hpoll, _, hid, _, hact, _, hst, _, het, _, hoi,
    reg1, hreg1, _, hrev, eff, heff, _, hzk, _, henc, _, hnon, vw, hvw, hplan⟩ := h
  rw [if_pos hpres] at heff
  have heq := resolve_delegation_ok_delegate poll (accs.getD 5 dummyAccount)
    (accs.getD 0 dummyAccount).key pid now d eff hd heff
  subst hplan
  simp [hpres, heq]

theorem cast_vote_core_vote_written (pid oi : ℕ) (w : Option ℕ) (ed zk non : Option (List ℕ))
    (accs : List Account) (now : ℕ) (st : List Account) (plan : CastPlan)
    (hchk : cast_vote_checks pid oi w ed zk non accs now = .ok plan)
    (hcore : cast_vote_core pid oi w ed zk non accs now = .ok st) :
    decode_vote (st.getD 1 dummyAccount).data = some plan.vote := by
  have hlen : 5 ≤ accs.length := by
    simp only [cast_vote_checks, bind_ok_iff, ensureE_ok_iff, okOr_ok_iff, pure_ok_iff] at hchk
    obtain ⟨_, hlen, _⟩ := hchk
    omega
  unfold cast_vote_core at hcore
  rw [hchk] at hcore
  simp only [] at hcore
  split at hcore
  next e hupd => exact Except.noConfusion hcore
  next vca hupd =>
    injection hcore with hst
    subst hst
    rw [getD_set_ne_acc _ 4 1 (by decide), getD_set_ne_acc _ 3 1 (by decide),
      getD_set_self_acc _ 1 (by omega)]
    rfl

/-- C7: delegated voting in CastVote.  With a delegation account supplied
on a poll that allows delegation: the delegation must name the caller as
delegator, be active, be scoped to this poll (or unscoped) and be
unexpired, in which case the effective identity resolved is the
delegate; each violation fails with `InvalidDelegation`, or
`DelegationExpired` when only the expiration check fails.  On a
successful CastVote the persisted ballot is attributed to the calling
voter (`vote.voter` is the caller) with the delegate recorded as
`delegated_to`. -/
theorem c7_delegation_resolution_and_attribution :
    (∀ (poll : Poll) (dacc : Account) (v : Pubkey) (pid now : ℕ) (d : Delegation),
      poll.allow_delegation = true →
      decode_delegation dacc.data = some d →
      ((d.delegator = v → d.is_active = true →
        (∀ p, d.poll_id = some p → p = pid) →
        (∀ e, d.expiration = some e → now ≤ e) →
        resolve_delegation poll (some dacc) v pid now = .ok d.delegate) ∧
       (d.delegator ≠ v →
        resolve_delegation poll (some dacc) v pid now = .error .invalidDelegation) ∧
       (d.delegator = v → d.is_active = false →
        resolve_delegation poll (some dacc) v pid now = .error .invalidDelegation) ∧
       (d.delegator = v → d.is_active = true →
        ∀ p, d.poll_id = some p → p ≠ pid →
        resolve_delegation poll (some dacc) v pid now = .error .invalidDelegation) ∧
       (d.delegator = v → d.is_active = true →
        (∀ p, d.poll_id = some p → p = pid) →
        ∀ e, d.expiration = some e → e < now →
        resolve_delegation poll (some dacc) v pid now = .error .delegationExpired))) ∧
    (∀ (poll : Poll) (dacc : Account) (v : Pubkey) (pid now : ℕ),
      poll.allow_delegation = false →
      resolve_delegation poll (some dacc) v pid now = .error .invalidDelegation) ∧
    (∀ (pid oi : ℕ) (w : Option ℕ) (ed zk non : Option (List ℕ)) (accs : List Account)
      (now : ℕ) (st : List Account) (d : Delegation),
      5 < accs.length →
      decode_delegation (accs.getD 5 dummyAccount).data = some d →
      cast_vote_core pid oi w ed zk non accs now = .ok st →
      ∃ vt, decode_vote (st.getD 1 dummyAccount).data = some vt ∧
        vt.voter = (accs.getD 0 dummyAccount).key ∧
        vt.delegated_to = some d.delegate) := by
  refine ⟨?_, ?_, ?_⟩
  · intro poll dacc v pid now d hall hd
    refine ⟨?_, ?_, ?_, ?_, ?_⟩
    · intro hdel hactv hscope hexp
      unfold resolve_delegation
      simp only [hd]
      cases hp : d.poll_id with
      | none =>
        cases he : d.expiration with
        | none => simp_all
        | some e => have := hexp e he; simp_all
      | some p =>
        have hpp := hscope p hp
        cases he : d.expiration with
        | none => simp_all
        | some e => have := hexp e he; simp_all
    · intro hne
      unfold resolve_delegation
      simp only [hd]
      simp_all
    · intro hdel hactv
      unfold resolve_delegation
      simp only [hd]
      simp_all
    · intro hdel hactv p hp hpne
      unfold resolve_delegation
      simp only [hd]
      simp_all
    · intro hdel hactv hscope e he hlt
      unfold resolve_delegation
      simp only [hd]
      cases hp : d.poll_id with
      | none => simp_all
      | some p => have := hscope p hp; simp_all
  · intro poll dacc v pid now hnall
    unfold resolve_delegation
    simp [hnall]
  · intro pid oi w ed zk non accs now st d hpres hd hcore
    cases hchk : cast_vote_checks pid oi w ed zk non accs now with
    | error e =>
      unfold cast_vote_core at hcore
      rw [hchk] at hcore
      exact Except.noConfusion hcore
    | ok plan =>
      have hvw := cast_vote_core_vote_written pid oi w ed zk non accs now st plan hchk hcore
      have hdt := cast_vote_checks_delegated_to pid oi w ed zk non accs now plan d hpres hd hchk
      have hvv : plan.vote.voter = (accs.getD 0 dummyAccount).key := by
        simp only [cast_vote_checks, bind_ok_iff, ensureE_ok_iff, okOr_ok_iff,
          pure_ok_iff] at hchk
        obtain ⟨_, _, _, _, _, _, poll, _, _, _, _, _, _, _, _, _, _, _, reg1, _, _, _, eff,
          _, _, _, _, _, _, _, vw, _, hplan⟩ := hchk
        subst hplan
        rfl
      exact ⟨plan.vote, hvw, hvv, hdt⟩

set_option maxRecDepth 80000 in
/-- C7, witness: the concrete weighted, delegated cast `castW` (voter
`[7]` with an active delegation to `[8]` scoped to poll 1) persists a
ballot attributed to `[7]` with `delegated_to = some [8]`. -/
theorem c7_delegation_resolution_and_attribution_witness :
    ∃ vt, decode_vote
        ((((cast_vote_core 1 0 none none none none accW 100).toOption.getD []).getD 1
          dummyAccount).data) = some vt ∧
      vt.voter = [7] ∧ vt.delegated_to = some [8] :=
  c7_delegation_resolution_and_attribution.2.2 1 0 none none none none accW 100
    ((cast_vote_core 1 0 none none none none accW 100).toOption.getD []) delegW
    (by decide) (by decide) (by decide)

/-! ### CreatePoll semantics (C8) -/

set_option maxRecDepth 4000 in
/-- C8: CreatePoll validates shape and bounds and initializes the three
records.  Too few accounts fail with `NotEnoughAccountKeys`; a
non-signing creator fails with `MissingRequiredSignature`; any bound
violation (title 1-100 bytes, description ≤ 1000, 1-20 options of 1-100
bytes each, start < end, end > current time, weighted requires a weight
token, bonus ≤ 100) fails with `InvalidPollParameters` — all with no
state change.  A valid call succeeds (given a well-formed fee) and
writes a new active Poll whose id is `now + creator_key[0] (mod 2^64)`,
a zero vote count sized to the option count (`total_voters = 0`,
`is_finalized = false`), and the empty registry whose 1024-byte bitmap
provides exactly 8192 voter slots. -/
theorem c8_create_poll_semantics (title description : List ℕ) (options : List (List ℕ))
    (start_time end_time : ℕ)
    (is_private allow_revote is_weighted allow_delegation is_encrypted : Bool)
    (weight_token : Option Pubkey) (early_voter_bonus : ℕ)
    (accounts : List Account) (now : ℕ) :
    (accounts.length < (if is_weighted ∧ weight_token.isSome then 5 else 4) →
      create_poll_core title description options start_time end_time is_private
        allow_revote is_weighted allow_delegation is_encrypted weight_token
        early_voter_bonus accounts now = .error (.notEnoughAccountKeys, accounts)) ∧
    (¬accounts.length < (if is_weighted ∧ weight_token.isSome then 5 else 4) →
      ¬(accounts.getD 0 dummyAccount).is_signer = true →
      create_poll_core title description options start_time end_time is_private
        allow_revote is_weighted allow_delegation is_encrypted weight_token
        early_voter_bonus accounts now = .error (.missingRequiredSignature, accounts)) ∧
    (¬accounts.length < (if is_weighted ∧ weight_token.isSome then 5 else 4) →
      (accounts.getD 0 dummyAccount).is_signer = true →
      (accounts.getD 1 dummyAccount).is_writable = true ∧
        (accounts.getD 2 dummyAccount).is_writable = true ∧
        (accounts.getD 3 dummyAccount).is_writable = true →
      ((title.length = 0 ∨ 100 < title.length) ∨ 1000 < description.length ∨
        (options.length = 0 ∨ 20 < options.length) ∨
        options.any (fun o => o.length = 0 || 100 < o.length) = true ∨
        end_time ≤ start_time ∨ end_time ≤ now ∨
        (is_weighted = true ∧ weight_token = none) ∨ 100 < early_voter_bonus) →
      create_poll_core title description options start_time end_time is_private
        allow_revote is_weighted allow_delegation is_encrypted weight_token
        early_voter_bonus accounts now = .error (.invalidPollParameters, accounts)) ∧
    (¬accounts.length < (if is_weighted ∧ weight_token.isSome then 5 else 4) →
      (accounts.getD 0 dummyAccount).is_signer = true →
      (accounts.getD 1 dummyAccount).is_writable = true ∧
        (accounts.getD 2 dummyAccount).is_writable = true ∧
        (accounts.getD 3 dummyAccount).is_writable = true →
      ¬(title.length = 0 ∨ 100 < title.length) →
      ¬1000 < description.length →
      ¬(options.length = 0 ∨ 20 < options.length) →
      ¬options.any (fun o => o.length = 0 || 100 < o.length) = true →
      ¬end_time ≤ start_time →
      ¬end_time ≤ now →
      ¬(is_weighted = true ∧ weight_token = none) →
      ¬100 < early_voter_bonus →
      ∀ n, process_create_poll title description options start_time end_time is_private
        allow_revote is_weighted allow_delegation is_encrypted weight_token
        early_voter_bonus (.decoded (n + 1)) accounts now =
      (.ok (), ((accounts.set 1 { accounts.getD 1 dummyAccount with
          data := .pollD (Poll.mk
            (wrapAdd64 now ((accounts.getD 0 dummyAccount).key.getD 0 0))
            (accounts.getD 0 dummyAccount).key title description options start_time
            end_time is_private allow_revote true is_weighted allow_delegation
            is_encrypted none weight_token early_voter_bonus) }).set 2
        { accounts.getD 2 dummyAccount with
          data := .vcD (VoteCount.mk
            (wrapAdd64 now ((accounts.getD 0 dummyAccount).key.getD 0 0))
            (List.replicate options.length 0) 0 now false) }).set 3
        { accounts.getD 3 dummyAccount with
          data := .regD (initial_registry
            (wrapAdd64 now ((accounts.getD 0 dummyAccount).key.getD 0 0))) })) ∧
    (∀ pid : ℕ, 8 * (initial_registry pid).voter_bitmap.length = 8192) := by
  refine ⟨?_, ?_, ?_, ?_, ?_⟩
  · intro hshort
    have hchk : create_poll_checks title description options start_time end_time is_private
        allow_revote is_weighted allow_delegation is_encrypted weight_token
        early_voter_bonus accounts now = .error .notEnoughAccountKeys := by
      unfold create_poll_checks
      simp_all [ensureE, Bind.bind, Except.bind]
    unfold create_poll_core
    rw [hchk]
  · intro hlen hnsig
    have hchk : create_poll_checks title description options start_time end_time is_private
        allow_revote is_weighted allow_delegation is_encrypted weight_token
        early_voter_bonus accounts now = .error .missingRequiredSignature := by
      unfold create_poll_checks
      simp_all [ensureE, Bind.bind, Except.bind]
    unfold create_poll_core
    rw [hchk]
  · intro hlen hsig hwrit hviol
    have hchk : create_poll_checks title description options start_time end_time is_private
        allow_revote is_weighted allow_delegation is_encrypted weight_token
        early_voter_bonus accounts now = .error .invalidPollParameters := by
      unfold create_poll_checks
      by_cases h1 : title.length = 0 ∨ 100 < title.length
      · simp_all [ensureE, Bind.bind, Except.bind]
      by_cases h2 : 1000 < description.length
      · simp_all [ensureE, Bind.bind, Except.bind]
      by_cases h3 : options.length = 0 ∨ 20 < options.length
      · simp_all [ensureE, Bind.bind, Except.bind]
      by_cases h4 : options.any (fun o => o.length = 0 || 100 < o.length) = true
      · simp_all [ensureE, Bind.bind, Except.bind]
      by_cases h5 : end_time ≤ start_time
      · simp_all [ensureE, Bind.bind, Except.bind]
      by_cases h6 : end_time ≤ now
      · simp_all [ensureE, Bind.bind, Except.bind]
      by_cases h7 : is_weighted = true ∧ weight_token = none
      · simp_all [ensureE, Bind.bind, Except.bind]
      by_cases h8 : 100 < early_voter_bonus
      · simp_all [ensureE, Bind.bind, Except.bind]
      tauto
    unfold create_poll_core
    rw [hchk]
  · intro hlen hsig hwrit h1 h2 h3 h4 h5 h6 h7 h8 n
    have hchk : create_poll_checks title description options start_time end_time is_private
        allow_revote is_weighted allow_delegation is_encrypted weight_token
        early_voter_bonus accounts now =
        .ok (CreatePlan.mk
          (Poll.mk (wrapAdd64 now ((accounts.getD 0 dummyAccount).key.getD 0 0))
            (accounts.getD 0 dummyAccount).key title description options start_time
            end_time is_private allow_revote true is_weighted allow_delegation
            is_encrypted none weight_token early_voter_bonus)
          (VoteCount.mk (wrapAdd64 now ((accounts.getD 0 dummyAccount).key.getD 0 0))
            (List.replicate options.length 0) 0 now false)
          (initial_registry
            (wrapAdd64 now ((accounts.getD 0 dummyAccount).key.getD 0 0)))) := by
      unfold create_poll_checks initial_registry
      simp_all [ensureE, Bind.bind, Except.bind, pure, Except.pure]
    unfold process_create_poll create_poll_core
    rw [hchk]
    rfl
  · intro pid
    simp [initial_registry]

/-- C8, witness: a concrete valid CreatePoll on `accCr` at `now = 50`
succeeds and writes the three initialized records. -/
theorem c8_create_poll_semantics_witness :
    process_create_poll [84] [] [[65], [66], [67]] 100 200 false true false false false
      none 0 (.decoded 1) accCr 50 =
    (.ok (), ((accCr.set 1 { accCr.getD 1 dummyAccount with
        data := .pollD (Poll.mk (wrapAdd64 50 9) [9] [84] [] [[65], [66], [67]] 100 200
          false true true false false false none none 0) }).set 2
      { accCr.getD 2 dummyAccount with
        data := .vcD (VoteCount.mk (wrapAdd64 50 9) (List.replicate 3 0) 0 50 false) }).set 3
      { accCr.getD 3 dummyAccount with
        data := .regD (initial_registry (wrapAdd64 50 9)) }) :=
  (c8_create_poll_semantics [84] [] [[65], [66], [67]] 100 200 false true false false false
    none 0 accCr 50).2.2.2.1 (by decide) (by decide) (by decide) (by decide) (by decide)
    (by decide) (by decide) (by decide) (by decide) (by decide) (by decide) 0

set_option maxRecDepth 80000 in
/-- C5, counterexample: Scenario C computed by the code.  On `pollW`
(early_voter_bonus 10, duration 1000) with token balance 100, a vote
cast exactly at `start_time` resolves to weight 111, not the claimed
`ceil(100 * 1.10) = 110`: the program computes the multiplier in IEEE
binary64, where `10.0 / 100.0` rounds up to `0.1000000000000000055…`,
so `100.0 * (1.0 + 0.1) = 110.00000000000001` and the ceiling is 111. -/
theorem c5_counterexample_scenario_c :
    resolve_vote_weight pollW (some ⟨[10], false, false, .tokD tokW⟩) [7] none 100 =
      .ok 111 ∧
    early_bonus_weight 100 10 0 1000 = 111 ∧ ¬(111 : ℕ) = 110 := by
  refine ⟨by decide, by decide, by decide⟩

set_option maxRecDepth 80000 in
/-- C5 (amended): the weighted-bonus formula, as computed in IEEE
binary64.  (i) When the bonus is zero or the poll duration is zero the
weight is exactly the token amount.  (ii) At full progress
(`elapsed = duration > 0`) the multiplier expression evaluates to the
double with value exactly one, so the weight is the amount rounded
through the float pipeline with a multiplier of exactly 1.0; in
particular `early_bonus_weight 100 10 1000 1000 = 100`.  (iii) At zero
progress the rounding error makes Scenario C yield 111, not 110. -/
theorem c5_weighted_bonus_f64 (poll : Poll) (amount now bonus d : ℕ) (hd : 0 < d) :
    (¬(0 < poll.early_voter_bonus ∧ 0 < satSub64 poll.end_time poll.start_time) →
      weighted_amount poll amount now = amount) ∧
    (F64.add (toF64 1) (F64.mul (F64.div (toF64 bonus) (toF64 100))
        (F64.sub (toF64 1) (F64.div (toF64 d) (toF64 d))))).val = 1 ∧
    early_bonus_weight amount bonus d d =
      F64.toU64 (F64.ceil (F64.mul (toF64 amount) (toF64 1))) ∧
    early_bonus_weight 100 10 1000 1000 = 100 ∧
    early_bonus_weight 100 10 0 1000 = 111 := by
  refine ⟨?_, ?_, ?_, by decide, by decide⟩
  · intro h
    unfold weighted_amount
    rw [if_neg h]
  · rw [multiplier_at_full bonus d hd, F64_val_one]
  · unfold early_bonus_weight
    simp only []
    rw [multiplier_at_full bonus d hd, toF64_one]

/-- C5, witness for the amended theorem at `d = 1000`, `bonus = 10`,
`amount = 100`, on the inactive-bonus poll `pollE`. -/
theorem c5_weighted_bonus_f64_witness :
    (0 : ℕ) < 1000 ∧
    ((¬(0 < pollE.early_voter_bonus ∧ 0 < satSub64 pollE.end_time pollE.start_time) →
      weighted_amount pollE 100 100 = 100) ∧
    (F64.add (toF64 1) (F64.mul (F64.div (toF64 10) (toF64 100))
        (F64.sub (toF64 1) (F64.div (toF64 1000) (toF64 1000))))).val = 1 ∧
    early_bonus_weight 100 10 1000 1000 =
      F64.toU64 (F64.ceil (F64.mul (toF64 100) (toF64 1))) ∧
    early_bonus_weight 100 10 1000 1000 = 100 ∧
    early_bonus_weight 100 10 0 1000 = 111) :=
  ⟨by decide, c5_weighted_bonus_f64 pollE 100 100 10 1000 (by decide)⟩
